import Mathlib

/-!
Verification of the gitki versioned document store (`gitki/gitki.py`)
against its natural-language specification.

The development shallowly embeds the store: the git repository is modelled
as a snapshot-per-commit object store with a head pointer, each
`subprocess` invocation of git becomes a pure function on that state
(cherry-pick is a file-granularity three-way merge, which agrees with
git's line-based merge on the whole-file rewrites, creations and deletions
the claims exercise), and Python's text I/O boundary (`encoding='utf-8',
errors='replace'` plus the universal-newlines translation that
`subprocess` text mode applies to captured stdout) is modelled by an
executable UTF-8 codec over codepoint lists.
-/

namespace Gitki

/-- Unicode codepoints of a Python `str`, one `Nat` per codepoint. -/
abbrev Str := List Nat

/-- Raw bytes (a Python `bytes` value or a git blob), one `Nat` per byte. -/
abbrev Bytes := List Nat

/-- A Unicode scalar value: what a strict UTF-8 encoder accepts. -/
def ScalarValue (c : Nat) : Prop := c < 0x110000 ∧ (c < 0xD800 ∨ 0xE000 ≤ c)

instance (c : Nat) : Decidable (ScalarValue c) := by
  unfold ScalarValue; infer_instance

/-- Standard UTF-8 encoding of one codepoint (1 to 4 bytes). -/
def utf8EncodeChar (c : Nat) : Bytes :=
  if c < 0x80 then [c]
  else if c < 0x800 then [0xC0 + c / 64, 0x80 + c % 64]
  else if c < 0x10000 then
    [0xE0 + c / 4096, 0x80 + (c / 64) % 64, 0x80 + c % 64]
  else
    [0xF0 + c / 262144, 0x80 + (c / 4096) % 64, 0x80 + (c / 64) % 64,
     0x80 + c % 64]

/-- UTF-8 encoding of a whole string (Python `str.encode('utf-8')`). -/
def utf8Encode (s : Str) : Bytes := s.flatMap utf8EncodeChar

/-- Is `b` a UTF-8 continuation byte (`0b10xxxxxx`)? -/
def isCont (b : Nat) : Bool := 0x80 ≤ b && b < 0xC0

/-- Lead byte of a two-byte sequence (0xC0/0xC1 are always overlong). -/
def twoLead (b : Nat) : Bool := 0xC2 ≤ b && b ≤ 0xDF

/-- Lead byte of a three-byte sequence. -/
def threeLead (b : Nat) : Bool := 0xE0 ≤ b && b ≤ 0xEF

/-- Lead byte of a four-byte sequence (0xF5.. is out of range). -/
def fourLead (b : Nat) : Bool := 0xF0 ≤ b && b ≤ 0xF4

/-- Second-byte check after a three-byte lead (rejects overlong encodings
after 0xE0 and surrogates after 0xED). -/
def cont3 (b1 b2 : Nat) : Bool :=
  isCont b2 && (b1 ≠ 0xE0 || 0xA0 ≤ b2) && (b1 ≠ 0xED || b2 < 0xA0)

/-- Second-byte check after a four-byte lead (rejects overlong encodings
after 0xF0 and codepoints past U+10FFFF after 0xF4). -/
def cont4 (b1 b2 : Nat) : Bool :=
  isCont b2 && (b1 ≠ 0xF0 || 0x90 ≤ b2) && (b1 ≠ 0xF4 || b2 < 0x90)

/-- Codepoint of a two-byte sequence. -/
def val2 (b1 b2 : Nat) : Nat := (b1 - 0xC0) * 64 + (b2 - 0x80)

/-- Codepoint of a three-byte sequence. -/
def val3 (b1 b2 b3 : Nat) : Nat :=
  (b1 - 0xE0) * 4096 + (b2 - 0x80) * 64 + (b3 - 0x80)

/-- Codepoint of a four-byte sequence. -/
def val4 (b1 b2 b3 b4 : Nat) : Nat :=
  (b1 - 0xF0) * 262144 + (b2 - 0x80) * 4096 + (b3 - 0x80) * 64 + (b4 - 0x80)

/-- UTF-8 decoding with `errors='replace'`: malformed input never fails.
Mirrors Python's strict well-formedness checks (continuation ranges,
overlong/surrogate/plane rejection) and its maximal-subpart replacement:
the longest valid prefix of a malformed sequence is consumed and replaced
by one U+FFFD. -/
def utf8DecodeReplace : Bytes → Str
  | [] => []
  | [b1] => if b1 < 0x80 then [b1] else [0xFFFD]
  | [b1, b2] =>
    if b1 < 0x80 then b1 :: utf8DecodeReplace [b2]
    else if twoLead b1 then
      if isCont b2 then [val2 b1 b2] else 0xFFFD :: utf8DecodeReplace [b2]
    else if threeLead b1 then
      if cont3 b1 b2 then [0xFFFD] else 0xFFFD :: utf8DecodeReplace [b2]
    else if fourLead b1 then
      if cont4 b1 b2 then [0xFFFD] else 0xFFFD :: utf8DecodeReplace [b2]
    else 0xFFFD :: utf8DecodeReplace [b2]
  | [b1, b2, b3] =>
    if b1 < 0x80 then b1 :: utf8DecodeReplace [b2, b3]
    else if twoLead b1 then
      if isCont b2 then val2 b1 b2 :: utf8DecodeReplace [b3]
      else 0xFFFD :: utf8DecodeReplace [b2, b3]
    else if threeLead b1 then
      if cont3 b1 b2 then
        if isCont b3 then [val3 b1 b2 b3] else 0xFFFD :: utf8DecodeReplace [b3]
      else 0xFFFD :: utf8DecodeReplace [b2, b3]
    else if fourLead b1 then
      if cont4 b1 b2 then
        if isCont b3 then [0xFFFD] else 0xFFFD :: utf8DecodeReplace [b3]
      else 0xFFFD :: utf8DecodeReplace [b2, b3]
    else 0xFFFD :: utf8DecodeReplace [b2, b3]
  | b1 :: b2 :: b3 :: b4 :: rest =>
    if b1 < 0x80 then b1 :: utf8DecodeReplace (b2 :: b3 :: b4 :: rest)
    else if twoLead b1 then
      if isCont b2 then val2 b1 b2 :: utf8DecodeReplace (b3 :: b4 :: rest)
      else 0xFFFD :: utf8DecodeReplace (b2 :: b3 :: b4 :: rest)
    else if threeLead b1 then
      if cont3 b1 b2 then
        if isCont b3 then val3 b1 b2 b3 :: utf8DecodeReplace (b4 :: rest)
        else 0xFFFD :: utf8DecodeReplace (b3 :: b4 :: rest)
      else 0xFFFD :: utf8DecodeReplace (b2 :: b3 :: b4 :: rest)
    else if fourLead b1 then
      if cont4 b1 b2 then
        if isCont b3 then
          if isCont b4 then
            val4 b1 b2 b3 b4 :: utf8DecodeReplace rest
          else 0xFFFD :: utf8DecodeReplace (b4 :: rest)
        else 0xFFFD :: utf8DecodeReplace (b3 :: b4 :: rest)
      else 0xFFFD :: utf8DecodeReplace (b2 :: b3 :: b4 :: rest)
    else 0xFFFD :: utf8DecodeReplace (b2 :: b3 :: b4 :: rest)

/-- Universal-newlines translation: Python's `subprocess` wraps captured
stdout in a `TextIOWrapper` with `newline=None`, so `"\r\n"` and lone
`"\r"` both read back as `"\n"` (codepoints 13/10). -/
def nlNorm : Str → Str
  | [] => []
  | [c] => if c = 13 then [10] else [c]
  | c :: c2 :: rest =>
    if c = 13 then
      if c2 = 10 then 10 :: nlNorm rest else 10 :: nlNorm (c2 :: rest)
    else c :: nlNorm (c2 :: rest)


/-! ## The git repository model

git is snapshot-based: each commit records a full tree.  A cherry-pick
three-way-merges the picked commit's snapshot against its parent's
snapshot (base) and the checkout's snapshot (ours).  We model the merge at
file granularity, which coincides with git's line-based merge for the
whole-file creations, rewrites and deletions the claims exercise. -/

/-- A revision identifier (an opaque content hash in git). -/
abbrev Rev := Nat

/-- `(GIT_AUTHOR_NAME, GIT_AUTHOR_EMAIL)` as passed via the environment. -/
abbrev Author := String × String

/-- A tree snapshot: tracked path names to blob bytes. -/
abbrev FileMap := List (String × Bytes)

def fget : FileMap → String → Option Bytes
  | [], _ => none
  | (k, v) :: rest, n => if k = n then some v else fget rest n

def fset : FileMap → String → Bytes → FileMap
  | [], n, v => [(n, v)]
  | (k, w) :: rest, n, v =>
    if k = n then (k, v) :: rest else (k, w) :: fset rest n v

def fdel : FileMap → String → FileMap
  | [], _ => []
  | (k, w) :: rest, n => if k = n then fdel rest n else (k, w) :: fdel rest n

def keysOf (m : FileMap) : List String := m.map Prod.fst

/-- Extensional comparison in one direction, over `m1`'s keys. -/
def fmSub (m1 m2 : FileMap) : Bool :=
  (keysOf m1).all fun k => fget m1 k == fget m2 k

/-- Do two snapshots agree on every path (`git status` clean / diff empty)? -/
def fmEq (m1 m2 : FileMap) : Bool := fmSub m1 m2 && fmSub m2 m1

structure Commit where
  parent : Option Rev
  author : Author
  message : String
  files : FileMap
deriving DecidableEq

/-- The shared repository: current branch head plus the object store.
`nextRev` is a fresh-identifier source standing in for content hashing. -/
structure Repo where
  head : Rev
  commits : List (Rev × Commit)
  nextRev : Rev
deriving DecidableEq

def findC : List (Rev × Commit) → Rev → Option Commit
  | [], _ => none
  | (k, c) :: rest, rev => if k = rev then some c else findC rest rev

def Repo.find (r : Repo) (rev : Rev) : Option Commit := findC r.commits rev

/-- The tree snapshot at a revision (empty for an unknown revision). -/
def snap (r : Repo) (rev : Rev) : FileMap := ((r.find rev).map Commit.files).getD []

/-- The snapshot a commit's change is diffed against: its parent's tree,
or the empty tree for a root commit. -/
def parentFiles (r : Repo) (c : Commit) : FileMap :=
  match c.parent with
  | none => []
  | some p => snap r p

/-- Well-formed object store: every stored identifier (and the head) is
below the fresh-identifier source, so newly allocated identifiers never
collide with existing ones. -/
def RepoWF (r : Repo) : Prop :=
  r.head < r.nextRev ∧ ∀ p ∈ r.commits, p.1 < r.nextRev

instance (r : Repo) : Decidable (RepoWF r) := by
  unfold RepoWF; infer_instance

/-- Three-way merge of one path: keep agreeing sides, take the side that
changed, conflict when both sides changed differently.  (`none` =
conflict; `some none` = merged result deletes the path.) -/
def mergeFile (b o t : Option Bytes) : Option (Option Bytes) :=
  if o = t then some o
  else if b = o then some t
  else if b = t then some o
  else none

def mergeKeys (base ours theirs : FileMap) : List String → Option FileMap
  | [] => some []
  | k :: ks =>
    match mergeKeys base ours theirs ks,
        mergeFile (fget base k) (fget ours k) (fget theirs k) with
    | some m, some (some v) => some ((k, v) :: m)
    | some m, some none => some m
    | _, _ => none

def allKeys (a b c : FileMap) : List String :=
  (keysOf a ++ keysOf b ++ keysOf c).dedup

/-- Three-way merge of whole snapshots; `none` is a merge conflict. -/
def merge3 (base ours theirs : FileMap) : Option FileMap :=
  mergeKeys base ours theirs (allKeys base ours theirs)

/-- The merged snapshot produced when "ours" coincides with the merge
base: the pick applies cleanly and the result carries exactly the picked
commit's tree (used to state the clean-replay lemmas). -/
def selfMerge (F T : FileMap) : FileMap :=
  (allKeys F F T).filterMap fun k => (fget T k).map fun v => (k, v)

/-- Allocate a fresh revision for a new commit object.  Commits made in a
linked worktree land in the same shared object store. -/
def addCommit (r : Repo) (c : Commit) : Rev × Repo :=
  (r.nextRev,
   { r with commits := (r.nextRev, c) :: r.commits, nextRev := r.nextRev + 1 })

/-! ### The subprocess-level git operations of `gitki.py` -/

/-- `git_index_head`: `git log -n1 --format=%H`, the current head. -/
def git_index_head (r : Repo) : Rev := r.head

/-- A linked worktree (`GitWorktree`): detached checkout of one revision
inside a temporary directory.  `conflicted` records that a failed
cherry-pick left conflict markers and sequencer state behind. -/
structure Wt where
  head : Rev
  files : FileMap
  conflicted : Bool
deriving DecidableEq

/-- `GitWorktree.__enter__`: `git worktree add -d <tmpdir> <revision>`.
Fails (infrastructure error) when the revision is unknown. -/
def worktreeAdd (r : Repo) (revision : Rev) : Option Wt :=
  (r.find revision).map fun c => ⟨revision, c.files, false⟩

/-- `git_stage_changes`: write the file and `git add` it.  The staged
index and working tree move together in this model. -/
def git_stage_changes (wt : Wt) (path : String) (contents : Bytes) : Wt :=
  { wt with files := fset wt.files path contents }

/-- `git_remove`: `git rm <path>`, which exits nonzero when the path does
not match a tracked file. -/
def git_remove (wt : Wt) (path : String) : Option Wt :=
  match fget wt.files path with
  | none => none
  | some _ => some { wt with files := fdel wt.files path }

/-- `git_commit` in the worktree: fails (exit 1, "nothing to commit") when
the staged tree equals the checked-out head's tree; otherwise records a
new commit object in the shared store and advances the worktree head. -/
def git_commit (r : Repo) (wt : Wt) (message : String) (author : Author) :
    Option (Rev × Repo × Wt) :=
  if fmEq wt.files (snap r wt.head) then none
  else
    let rc := addCommit r ⟨some wt.head, author, message, wt.files⟩
    some (rc.1, rc.2, { wt with head := rc.1 })

/-- `git_reset`: `git reset --hard <revision>` in the worktree; the
working tree becomes that revision's snapshot, hence clean. -/
def git_reset (r : Repo) (wt : Wt) (revision : Rev) : Wt :=
  ⟨revision, snap r revision, false⟩

inductive PickResult where
  /-- Clean pick: new commit `rev`, updated object store, moved worktree. -/
  | ok (rev : Rev) (repo : Repo) (wt : Wt)
  /-- Merge conflict: nonzero exit, conflict markers left in the tree. -/
  | conflict (wt : Wt)
  /-- Nonzero exit for another reason (unknown revision, or the pick is
  empty against the current head, which git refuses without
  `--allow-empty`); the tree is left as it was. -/
  | failed (wt : Wt)
deriving DecidableEq

/-- `git_cherry_pick` in the worktree: three-way merge of the picked
commit against its parent (base) and the worktree tree (ours). -/
def git_cherry_pick_wt (r : Repo) (wt : Wt) (pickRev : Rev) : PickResult :=
  match r.find pickRev with
  | none => .failed wt
  | some c =>
    match merge3 (parentFiles r c) wt.files c.files with
    | none => .conflict { wt with conflicted := true }
    | some m =>
      if fmEq m wt.files then .failed wt
      else
        let rc := addCommit r ⟨some wt.head, c.author, c.message, m⟩
        .ok rc.1 rc.2 ⟨rc.1, m, false⟩

/-- `git_cherry_pick` on the shared repository (the publish step): on a
clean, non-empty merge the shared head advances to the new commit; on any
failure the head is unchanged. -/
def git_cherry_pick_repo (r : Repo) (pickRev : Rev) : Option (Rev × Repo) :=
  match r.find pickRev with
  | none => none
  | some c =>
    match merge3 (parentFiles r c) (snap r r.head) c.files with
    | none => none
    | some m =>
      if fmEq m (snap r r.head) then none
      else
        let rc := addCommit r ⟨some r.head, c.author, c.message, m⟩
        some (rc.1, { rc.2 with head := rc.1 })

/-- Is the worktree dirty (`git status` not clean)?  True after a
conflicted cherry-pick or when the tree differs from its head. -/
def wtDirty (r : Repo) (wt : Wt) : Bool :=
  wt.conflicted || !(fmEq wt.files (snap r wt.head))

/-! ### The Gitki class -/

/-- The only error type the code defines is `NotFoundError`; everything
else escapes as an untyped `subprocess.CalledProcessError`. -/
inductive GitkiErr where
  | notFound
  | processError
deriving DecidableEq

/-- Why a `git show <rev>:<path>` invocation exited nonzero. -/
inductive ShowErr where
  | badRevision
  | pathAbsent
deriving DecidableEq

/-- `git show <revision>:<name>`: the blob bytes, or a nonzero exit when
the revision is unknown or the path is absent in its tree. -/
def gitShow (r : Repo) (revision : Rev) (name : String) : Except ShowErr Bytes :=
  match r.find revision with
  | none => .error .badRevision
  | some c =>
    match fget c.files name with
    | none => .error .pathAbsent
    | some b => .ok b

/-- `Gitki.get_contents_at_revision`: runs `git show` with
`encoding='utf-8', errors='replace'`; `except CalledProcessError` maps
every failure to `NotFoundError`.  Captured stdout passes through
replacement decoding and universal-newlines translation. -/
def get_contents_at_revision (r : Repo) (name : String) (revision : Rev) :
    Except GitkiErr Str :=
  match gitShow r revision name with
  | .error _ => .error .notFound
  | .ok b => .ok (nlNorm (utf8DecodeReplace b))

/-- A Python value passed as `contents`: `str` (written text-mode, encoded
UTF-8) or `bytes` (written binary-mode, stored as given). -/
inductive PyContent where
  | text (s : Str)
  | raw (b : Bytes)
deriving DecidableEq

def encodeContent : PyContent → Bytes
  | .text s => utf8Encode s
  | .raw b => b

instance {ε α : Type} [DecidableEq ε] [DecidableEq α] :
    DecidableEq (Except ε α) := fun a b =>
  match a, b with
  | .ok x, .ok y =>
    if h : x = y then .isTrue (by rw [h]) else .isFalse (by simp [h])
  | .error x, .error y =>
    if h : x = y then .isTrue (by rw [h]) else .isFalse (by simp [h])
  | .ok _, .error _ => .isFalse (by simp)
  | .error _, .ok _ => .isFalse (by simp)

/-- The observable outcome of one `update_file` call: the Python return
value or the escaping exception, the shared repository afterwards, and
whether worktree residue (registration + temporary directory) was left
behind. -/
structure WriteOutcome where
  result : Except GitkiErr (Option Rev)
  repo : Repo
  residue : Bool
deriving DecidableEq

/-- `GitWorktree.__exit__`: `git worktree remove <dir>` (no `--force`),
which refuses to remove a dirty worktree.  When it fails, the raised
`CalledProcessError` replaces any in-flight exception and the temporary
directory's removal is never reached, so registration and directory both
remain. -/
def closeWith (r : Repo) (wt : Wt) (res : Except GitkiErr (Option Rev)) :
    WriteOutcome :=
  if wtDirty r wt then ⟨.error .processError, r, true⟩
  else ⟨res, r, false⟩

/-- Step 3 of the pipeline, as in `update_file`: reset the worktree hard
onto `self.index_head` — the head read freshly from the repository at this
moment — then replay the provisional commit with a cherry-pick. -/
def rebasePhase (r : Repo) (wt : Wt) (r1 : Rev) : PickResult :=
  git_cherry_pick_wt r (git_reset r wt (git_index_head r)) r1

/-- The staging step of `update_file`: `git rm` for a deletion, write the
file and `git add` otherwise. -/
def stageStep (wt : Wt) (name : String) (contents : Option PyContent) :
    Option Wt :=
  match contents with
  | none => git_remove wt name
  | some c => some (git_stage_changes wt name (encodeContent c))

/-- `if not message: message = 'Update {}'.format(name)`. -/
def defaultMessage (name message : String) : String :=
  if message = "" then "Update " ++ name else message

/-- `Gitki.update_file`.  The Python function body ends without a
`return`, so its value on success is `None` (`Except.ok none`). -/
def update_file (r : Repo) (name : String) (author : Author)
    (contents : Option PyContent) (revision : Rev) (message : String) :
    WriteOutcome :=
  match worktreeAdd r revision with
  | none => ⟨.error .processError, r, true⟩
  | some wt0 =>
    match stageStep wt0 name contents with
    | none => closeWith r wt0 (.error .processError)
    | some wt1 =>
      match git_commit r wt1 (defaultMessage name message) author with
      | none => closeWith r wt1 (.error .processError)
      | some (r1rev, r2, wt2) =>
        match rebasePhase r2 wt2 r1rev with
        | .conflict wt3 => closeWith r2 wt3 (.error .processError)
        | .failed wt3 => closeWith r2 wt3 (.error .processError)
        | .ok r2rev r3 wt4 =>
          match git_cherry_pick_repo r3 r2rev with
          | none => closeWith r3 wt4 (.error .processError)
          | some (_, r4) => closeWith r4 wt4 (.ok none)

/-! ## The history parser (`Gitki.history`)

`git_log` produces `--format=tformat:%H%n%cr%n%aN <%aE>%n%s --numstat`
output; `history` iterates over its `.splitlines()` and consumes six lines
per record: four header lines, the blank separator (read but never
inspected), and the numstat line, whose first two whitespace-separated
tokens go through `int()`.  A `next()` hitting the end of input inside the
generator raises `StopIteration`, which PEP 479 (Python ≥ 3.7) converts to
a `RuntimeError`; a bad `int()` or a short split raises `ValueError`.
Lines are codepoint lists, as produced by `.splitlines()`. -/

abbrev Line := List Nat

def isPySpace (c : Nat) : Bool :=
  c = 32 || c = 9 || c = 10 || c = 11 || c = 12 || c = 13

/-- Python `str.rstrip()` (ASCII whitespace). -/
def pyRstrip (l : Line) : Line := (l.reverse.dropWhile isPySpace).reverse

/-- Python `str.strip()` (ASCII whitespace). -/
def pyStrip (l : Line) : Line :=
  ((l.dropWhile isPySpace).reverse.dropWhile isPySpace).reverse

/-- Python `str.split()` with no argument: split on runs of whitespace,
discarding empty fields. -/
def pySplit (l : Line) : List Line :=
  (l.foldr
    (fun c acc =>
      if isPySpace c then [] :: acc
      else
        match acc with
        | [] => [[c]]
        | w :: ws => (c :: w) :: ws)
    []).filter (fun w => !w.isEmpty)

def digitVal (c : Nat) : Option Nat :=
  if 48 ≤ c ∧ c ≤ 57 then some (c - 48) else none

/-- Digits after the first one; Python 3.6+ allows single underscores
between digits. -/
def intTail : Line → Nat → Option Nat
  | [], acc => some acc
  | 95 :: c :: rest, acc =>
    match digitVal c with
    | some d => intTail rest (acc * 10 + d)
    | none => none
  | [95], _ => none
  | c :: rest, acc =>
    match digitVal c with
    | some d => intTail rest (acc * 10 + d)
    | none => none

def intBody (l : Line) : Option Nat :=
  match l with
  | [] => none
  | c :: rest =>
    match digitVal c with
    | some d => intTail rest d
    | none => none

/-- Python `int(str)`: optional surrounding whitespace, optional sign,
then underscore-grouped digits; anything else raises `ValueError`
(modelled as `none`). -/
def pyInt (l : Line) : Option Int :=
  match pyStrip l with
  | 43 :: rest => (intBody rest).map Int.ofNat
  | 45 :: rest => (intBody rest).map fun n => -(Int.ofNat n)
  | s => (intBody s).map Int.ofNat

structure HistEntry where
  rev : Line
  time : Line
  author : Line
  subject : Line
  insertions : Int
  deletions : Int
deriving DecidableEq

inductive HistErr where
  /-- `StopIteration` inside the generator body → `RuntimeError`. -/
  | runtimeError
  /-- Failed `int()` conversion or a too-short tuple unpacking. -/
  | valueError
deriving DecidableEq

/-- `Gitki.history`, fully consumed (the Flask history view iterates the
generator to exhaustion).  Six lines per record; the fifth (`blank`) is
bound but never examined. -/
def history : List Line → Except HistErr (List HistEntry)
  | [] => .ok []
  | l1 :: l2 :: l3 :: l4 :: _l5 :: l6 :: rest =>
    match pySplit l6 with
    | ins :: del :: _files =>
      match pyInt ins, pyInt del with
      | some i, some d =>
        match history rest with
        | .ok es =>
          .ok (⟨pyRstrip l1, pyRstrip l2, pyRstrip l3, pyRstrip l4, i, d⟩ :: es)
        | .error e => .error e
      | _, _ => .error .valueError
    | _ => .error .valueError
  | _ :: _ => .error .runtimeError

def exceptIsOk {ε α : Type} : Except ε α → Bool
  | .ok _ => true
  | .error _ => false

def isBlankLine (l : Line) : Bool := l.all isPySpace

/-- Does a numstat line carry two leading `int()`-convertible tokens? -/
def statsLineOk (l : Line) : Bool :=
  match pySplit l with
  | ins :: del :: _ => (pyInt ins).isSome && (pyInt del).isSome
  | _ => false

/-- The record shape the specification requires (§4.4, §6): exactly four
header lines (identifier, time, author, subject), then a blank separator
line, then a numeric-stats line, repeated. -/
def specWellShaped : List Line → Bool
  | [] => true
  | _ :: _ :: _ :: _ :: l5 :: l6 :: rest =>
    isBlankLine l5 && statsLineOk l6 && specWellShaped rest
  | _ => false

/-- The shape `history` actually accepts: the blank separator line is
consumed without being looked at. -/
def looseShaped : List Line → Bool
  | [] => true
  | _ :: _ :: _ :: _ :: _ :: l6 :: rest => statsLineOk l6 && looseShaped rest
  | _ => false

/-! ## Concrete fixtures used by witnesses and counterexamples -/

def authA : Author := ("Alyssa P. Hacker", "aphacker@example.org")

/-- The wiki page path `FrontPage.txt`-style document used in scenarios. -/
def pg : String := "Page.txt"

/-- Root commit: `Page.txt` contains `"a"`. -/
def commit0 : Commit := ⟨none, authA, "init", [(pg, [97])]⟩

/-- A concurrent writer's published edit: `Page.txt` rewritten to `"X"`. -/
def commit1 : Commit := ⟨some 0, authA, "concurrent edit", [(pg, [88])]⟩

/-- Repository with only the root commit; head = 0. -/
def repo0 : Repo := ⟨0, [(0, commit0)], 1⟩

/-- Repository where a concurrent edit already advanced the head to 1. -/
def repo1 : Repo := ⟨1, [(1, commit1), (0, commit0)], 2⟩

/-- A commit whose blob is not valid UTF-8 (a lone 0xFF byte). -/
def commitBin : Commit := ⟨none, authA, "binary", [("Bin.txt", [255])]⟩

def repoBin : Repo := ⟨0, [(0, commitBin)], 1⟩

/-- A log output whose separator line is `"x"` rather than blank: the
record violates the required shape, but parses. -/
def badLines : List Line :=
  [[114], [116], [97], [115], [120], [49, 32, 50, 32, 102]]


/-! ## Theorems: the text boundary -/

theorem nlNorm_of_no_cr : ∀ s : Str, 13 ∉ s → nlNorm s = s
  | [], _ => rfl
  | [c], h => by
    have hc : c ≠ 13 := by simp at h; omega
    simp [nlNorm, hc]
  | c :: c2 :: rest, h => by
    have hc : c ≠ 13 := by simp at h; omega
    have hr : 13 ∉ c2 :: rest := fun hr => h (List.mem_cons_of_mem c hr)
    simp only [nlNorm, hc, if_false]
    rw [nlNorm_of_no_cr (c2 :: rest) hr]

theorem dec_ascii (b1 : Nat) (h : b1 < 0x80) :
    ∀ rest, utf8DecodeReplace (b1 :: rest) = b1 :: utf8DecodeReplace rest
  | [] => by simp [utf8DecodeReplace, h]
  | [_] => by simp [utf8DecodeReplace, h]
  | [_, _] => by simp [utf8DecodeReplace, h]
  | _ :: _ :: _ :: _ => by simp [utf8DecodeReplace, h]

theorem dec_two (b1 b2 : Nat) (h1 : twoLead b1 = true) (h2 : isCont b2 = true) :
    ∀ rest, utf8DecodeReplace (b1 :: b2 :: rest)
      = val2 b1 b2 :: utf8DecodeReplace rest
  | [] => by
    have hna : ¬ (b1 < 0x80) := by simp [twoLead] at h1; omega
    simp [utf8DecodeReplace, hna, h1, h2]
  | [_] => by
    have hna : ¬ (b1 < 0x80) := by simp [twoLead] at h1; omega
    simp [utf8DecodeReplace, hna, h1, h2]
  | _ :: _ :: _ => by
    have hna : ¬ (b1 < 0x80) := by simp [twoLead] at h1; omega
    simp [utf8DecodeReplace, hna, h1, h2]

theorem dec_three (b1 b2 b3 : Nat) (h1 : threeLead b1 = true)
    (h2 : cont3 b1 b2 = true) (h3 : isCont b3 = true) :
    ∀ rest, utf8DecodeReplace (b1 :: b2 :: b3 :: rest)
      = val3 b1 b2 b3 :: utf8DecodeReplace rest
  | [] => by
    have hna : ¬ (b1 < 0x80) := by simp [threeLead] at h1; omega
    have hn2 : twoLead b1 = false := by
      simp [threeLead] at h1; simp [twoLead]; omega
    simp [utf8DecodeReplace, hna, hn2, h1, h2, h3]
  | _ :: _ => by
    have hna : ¬ (b1 < 0x80) := by simp [threeLead] at h1; omega
    have hn2 : twoLead b1 = false := by
      simp [threeLead] at h1; simp [twoLead]; omega
    simp [utf8DecodeReplace, hna, hn2, h1, h2, h3]

theorem dec_four (b1 b2 b3 b4 : Nat) (h1 : fourLead b1 = true)
    (h2 : cont4 b1 b2 = true) (h3 : isCont b3 = true) (h4 : isCont b4 = true)
    (rest : Bytes) :
    utf8DecodeReplace (b1 :: b2 :: b3 :: b4 :: rest)
      = val4 b1 b2 b3 b4 :: utf8DecodeReplace rest := by
  have hna : ¬ (b1 < 0x80) := by simp [fourLead] at h1; omega
  have hn2 : twoLead b1 = false := by
    simp [fourLead] at h1; simp [twoLead]; omega
  have hn3 : threeLead b1 = false := by
    simp [fourLead] at h1; simp [threeLead]; omega
  simp [utf8DecodeReplace, hna, hn2, hn3, h1, h2, h3, h4]

theorem decode_encodeChar (c : Nat) (hc : ScalarValue c) (rest : Bytes) :
    utf8DecodeReplace (utf8EncodeChar c ++ rest) = c :: utf8DecodeReplace rest := by
  obtain ⟨h1, h2⟩ := hc
  unfold utf8EncodeChar
  by_cases ha : c < 0x80
  · simpa [ha] using dec_ascii c ha rest
  · by_cases hb : c < 0x800
    · have e1 : twoLead (0xC0 + c / 64) = true := by
        simp only [twoLead, Bool.and_eq_true, decide_eq_true_eq]; omega
      have e2 : isCont (0x80 + c % 64) = true := by
        simp only [isCont, Bool.and_eq_true, decide_eq_true_eq]; omega
      have hv : val2 (0xC0 + c / 64) (0x80 + c % 64) = c := by
        simp only [val2, Nat.add_sub_cancel_left]; omega
      simp only [ha, if_false, hb, if_true, List.cons_append, List.nil_append]
      rw [dec_two _ _ e1 e2, hv]
    · by_cases hc3 : c < 0x10000
      · have e1 : threeLead (0xE0 + c / 4096) = true := by
          simp only [threeLead, Bool.and_eq_true, decide_eq_true_eq]; omega
        have e2 : cont3 (0xE0 + c / 4096) (0x80 + (c / 64) % 64) = true := by
          simp only [cont3, isCont, Bool.and_eq_true, Bool.or_eq_true,
            decide_eq_true_eq, ne_eq, decide_not, Bool.not_eq_true',
            decide_eq_false_iff_not]
          refine ⟨⟨⟨by omega, by omega⟩, ?_⟩, ?_⟩
          · by_cases h0 : c / 4096 = 0
            · right; omega
            · left; omega
          · by_cases hd : c / 4096 = 13
            · right; omega
            · left; omega
        have e3 : isCont (0x80 + c % 64) = true := by
          simp only [isCont, Bool.and_eq_true, decide_eq_true_eq]; omega
        have hv : val3 (0xE0 + c / 4096) (0x80 + (c / 64) % 64)
            (0x80 + c % 64) = c := by
          simp only [val3, Nat.add_sub_cancel_left]; omega
        simp only [ha, if_false, hb, if_false, hc3, if_true, List.cons_append,
          List.nil_append]
        rw [dec_three _ _ _ e1 e2 e3, hv]
      · have e1 : fourLead (0xF0 + c / 262144) = true := by
          simp only [fourLead, Bool.and_eq_true, decide_eq_true_eq]; omega
        have e2 : cont4 (0xF0 + c / 262144) (0x80 + (c / 4096) % 64) = true := by
          simp only [cont4, isCont, Bool.and_eq_true, Bool.or_eq_true,
            decide_eq_true_eq, ne_eq, decide_not, Bool.not_eq_true',
            decide_eq_false_iff_not]
          refine ⟨⟨⟨by omega, by omega⟩, ?_⟩, ?_⟩
          · by_cases h0 : c / 262144 = 0
            · right; omega
            · left; omega
          · by_cases hd : c / 262144 = 4
            · right; omega
            · left; omega
        have e3 : isCont (0x80 + (c / 64) % 64) = true := by
          simp only [isCont, Bool.and_eq_true, decide_eq_true_eq]; omega
        have e4 : isCont (0x80 + c % 64) = true := by
          simp only [isCont, Bool.and_eq_true, decide_eq_true_eq]; omega
        have hv : val4 (0xF0 + c / 262144) (0x80 + (c / 4096) % 64)
            (0x80 + (c / 64) % 64) (0x80 + c % 64) = c := by
          simp only [val4, Nat.add_sub_cancel_left]; omega
        simp only [ha, if_false, hb, if_false, hc3, if_false, List.cons_append,
          List.nil_append]
        rw [dec_four _ _ _ _ e1 e2 e3 e4, hv]

theorem decode_encode_append (s : Str) (hs : ∀ c ∈ s, ScalarValue c)
    (rest : Bytes) :
    utf8DecodeReplace (utf8Encode s ++ rest) = s ++ utf8DecodeReplace rest := by
  induction s with
  | nil => simp [utf8Encode]
  | cons c cs ih =>
    have hc : ScalarValue c := hs c (List.mem_cons_self c cs)
    have hcs : ∀ x ∈ cs, ScalarValue x := fun x hx => hs x (List.mem_cons_of_mem c hx)
    simp only [utf8Encode, List.flatMap_cons, List.append_assoc]
    rw [decode_encodeChar c hc, List.cons_append]
    congr 1
    exact ih hcs

theorem decode_encode (s : Str) (hs : ∀ c ∈ s, ScalarValue c) :
    utf8DecodeReplace (utf8Encode s) = s := by
  have := decode_encode_append s hs []
  simpa [utf8DecodeReplace] using this

/-! ## Lemmas: file maps, three-way merge, and the object store -/

theorem fget_fset_self (m : FileMap) (n : String) (v : Bytes) :
    fget (fset m n v) n = some v := by
  induction m with
  | nil => simp [fset, fget]
  | cons p rest ih =>
    obtain ⟨k, w⟩ := p
    by_cases h : k = n
    · simp [fset, fget, h]
    · simp [fset, fget, h, ih]

theorem fget_fset_ne (m : FileMap) (n k : String) (v : Bytes) (h : k ≠ n) :
    fget (fset m n v) k = fget m k := by
  induction m with
  | nil => simp [fset, fget, Ne.symm h]
  | cons p rest ih =>
    obtain ⟨k', w⟩ := p
    by_cases h' : k' = n
    · subst h'; simp [fset, fget, Ne.symm h]
    · simp only [fset, h', if_false]
      by_cases h'' : k' = k
      · simp [fget, h'']
      · simp [fget, h'', ih]

theorem fget_fdel_self (m : FileMap) (n : String) :
    fget (fdel m n) n = none := by
  induction m with
  | nil => simp [fdel, fget]
  | cons p rest ih =>
    obtain ⟨k, w⟩ := p
    by_cases h : k = n
    · simp [fdel, h, ih]
    · simp [fdel, fget, h, ih]

theorem mem_keys_of_fget {m : FileMap} {k : String} {v : Bytes}
    (h : fget m k = some v) : k ∈ keysOf m := by
  induction m with
  | nil => simp [fget] at h
  | cons p rest ih =>
    obtain ⟨k', w⟩ := p
    by_cases h' : k' = k
    · simp [keysOf, h']
    · simp only [fget, h', if_false] at h
      simp [keysOf] at ih ⊢
      exact Or.inr (ih h)

theorem fget_eq_none_of_not_mem {m : FileMap} {k : String}
    (h : k ∉ keysOf m) : fget m k = none := by
  cases hv : fget m k with
  | none => rfl
  | some v => exact absurd (mem_keys_of_fget hv) h

theorem fmEq_fget {m1 m2 : FileMap} (h : fmEq m1 m2 = true) (k : String) :
    fget m1 k = fget m2 k := by
  simp only [fmEq, Bool.and_eq_true, fmSub, List.all_eq_true, beq_iff_eq] at h
  obtain ⟨ha, hb⟩ := h
  cases hv : fget m1 k with
  | some v => rw [← hv]; exact ha k (mem_keys_of_fget hv)
  | none =>
    cases hw : fget m2 k with
    | some w => rw [← hv, ← hw]; exact (hb k (mem_keys_of_fget hw)).symm
    | none => rfl

theorem fmEq_of_fget {m1 m2 : FileMap} (h : ∀ k, fget m1 k = fget m2 k) :
    fmEq m1 m2 = true := by
  simp only [fmEq, Bool.and_eq_true, fmSub, List.all_eq_true, beq_iff_eq]
  exact ⟨fun k _ => h k, fun k _ => (h k).symm⟩

theorem fmEq_refl (m : FileMap) : fmEq m m = true :=
  fmEq_of_fget fun _ => rfl

theorem fmEq_false_of {m1 m2 : FileMap} {k : String} {v : Bytes}
    (h1 : fget m1 k = some v) (h2 : fget m2 k ≠ some v) :
    fmEq m1 m2 = false := by
  cases hb : fmEq m1 m2 with
  | false => rfl
  | true => exact absurd (h1 ▸ fmEq_fget hb k) fun he => h2 he.symm

theorem findC_cons (k : Rev) (c : Commit) (rest : List (Rev × Commit))
    (rev : Rev) :
    findC ((k, c) :: rest) rev = if k = rev then some c else findC rest rev :=
  rfl

theorem addCommit_head (r : Repo) (c : Commit) :
    (addCommit r c).2.head = r.head := rfl

theorem addCommit_nextRev (r : Repo) (c : Commit) :
    (addCommit r c).2.nextRev = r.nextRev + 1 := rfl

theorem addCommit_fst (r : Repo) (c : Commit) : (addCommit r c).1 = r.nextRev :=
  rfl

theorem find_addCommit_self (r : Repo) (c : Commit) :
    (addCommit r c).2.find r.nextRev = some c := by
  simp [addCommit, Repo.find, findC]

theorem find_addCommit_ne (r : Repo) (c : Commit) (rev : Rev)
    (h : rev ≠ r.nextRev) : (addCommit r c).2.find rev = r.find rev := by
  simp [addCommit, Repo.find, findC, Ne.symm h]

theorem snap_addCommit_ne (r : Repo) (c : Commit) (rev : Rev)
    (h : rev ≠ r.nextRev) : snap (addCommit r c).2 rev = snap r rev := by
  simp [snap, find_addCommit_ne r c rev h]

theorem mergeFile_ours_base (x y : Option Bytes) : mergeFile x x y = some y := by
  unfold mergeFile
  by_cases h : x = y
  · simp [h]
  · simp [h]

theorem mergeKeys_ours_base (b t : FileMap) : ∀ ks : List String,
    mergeKeys b b t ks
      = some (ks.filterMap fun k => (fget t k).map fun v => (k, v))
  | [] => rfl
  | k :: ks => by
    have ih := mergeKeys_ours_base b t ks
    cases h : fget t k with
    | none => simp [mergeKeys, ih, mergeFile_ours_base, h, List.filterMap_cons]
    | some v => simp [mergeKeys, ih, mergeFile_ours_base, h, List.filterMap_cons]

theorem fget_filterMap (t : FileMap) : ∀ (ks : List String) (k : String),
    fget (ks.filterMap fun x => (fget t x).map fun v => (x, v)) k
      = if k ∈ ks then fget t k else none
  | [], k => by simp [fget]
  | x :: ks, k => by
    have ih := fget_filterMap t ks k
    cases h : fget t x with
    | none =>
      by_cases hks : k ∈ ks
      · simp [List.filterMap_cons, h, ih, hks]
      · by_cases hx : k = x
        · subst hx; simp [List.filterMap_cons, h, ih, hks]
        · simp [List.filterMap_cons, h, ih, hks, hx]
    | some v =>
      by_cases hx : x = k
      · subst hx; simp [List.filterMap_cons, h, fget]
      · simp [List.filterMap_cons, h, fget, hx, ih, Ne.symm hx]

theorem merge3_ours_base (b t : FileMap) :
    merge3 b b t
      = some ((allKeys b b t).filterMap fun k => (fget t k).map fun v => (k, v)) := by
  rw [merge3, mergeKeys_ours_base]

theorem merge3_ours_base_fget (b t : FileMap) (k : String) :
    fget ((allKeys b b t).filterMap fun x => (fget t x).map fun v => (x, v)) k
      = fget t k := by
  rw [fget_filterMap]
  by_cases hk : k ∈ allKeys b b t
  · simp [hk]
  · have hnt : k ∉ keysOf t := by
      intro hmem
      exact hk (by simp [allKeys, List.mem_dedup, List.mem_append, hmem])
    simp [hk, fget_eq_none_of_not_mem hnt]

/-! ## Lemmas: decoded output is always valid text -/

theorem forall_mem_nil_iff {p : Nat → Prop} :
    (∀ x ∈ ([] : List Nat), p x) ↔ True := by simp

set_option maxRecDepth 4096 in
/-- Everything the replacement decoder emits is a Unicode scalar value: a
genuine `str` comes back from every read, however malformed the bytes. -/
theorem decode_scalars : ∀ (b : Bytes), ∀ x ∈ utf8DecodeReplace b, ScalarValue x
  | [] => by simp [utf8DecodeReplace]
  | [b1] => by
    intro x hx
    rw [utf8DecodeReplace.eq_2] at hx
    repeat' split at hx
    all_goals revert x
    all_goals try simp only [List.forall_mem_cons, forall_mem_nil_iff, and_true]
    all_goals simp only [ScalarValue, twoLead, threeLead, fourLead, isCont,
      cont3, cont4, val2, val3, val4, Bool.and_eq_true, Bool.or_eq_true,
      decide_eq_true_eq, ne_eq, decide_not, Bool.not_eq_true',
      decide_eq_false_iff_not, not_lt, not_le] at *
    all_goals first | exact ⟨by omega, by assumption⟩ | omega
  | [b1, b2] => by
    have ih1 := decode_scalars [b2]
    intro x hx
    rw [utf8DecodeReplace.eq_3] at hx
    generalize hL1 : utf8DecodeReplace [b2] = L1 at hx ih1
    repeat' split at hx
    all_goals revert x
    all_goals try simp only [List.forall_mem_cons, forall_mem_nil_iff, and_true]
    all_goals simp only [ScalarValue, twoLead, threeLead, fourLead, isCont,
      cont3, cont4, val2, val3, val4, Bool.and_eq_true, Bool.or_eq_true,
      decide_eq_true_eq, ne_eq, decide_not, Bool.not_eq_true',
      decide_eq_false_iff_not, not_lt, not_le] at *
    all_goals first | exact ⟨by omega, by assumption⟩ | omega
  | [b1, b2, b3] => by
    have ih1 := decode_scalars [b3]
    have ih2 := decode_scalars [b2, b3]
    intro x hx
    rw [utf8DecodeReplace.eq_4] at hx
    generalize hL1 : utf8DecodeReplace [b3] = L1 at hx ih1
    generalize hL2 : utf8DecodeReplace [b2, b3] = L2 at hx ih2
    repeat' split at hx
    all_goals revert x
    all_goals try simp only [List.forall_mem_cons, forall_mem_nil_iff, and_true]
    all_goals simp only [ScalarValue, twoLead, threeLead, fourLead, isCont,
      cont3, cont4, val2, val3, val4, Bool.and_eq_true, Bool.or_eq_true,
      decide_eq_true_eq, ne_eq, decide_not, Bool.not_eq_true',
      decide_eq_false_iff_not, not_lt, not_le] at *
    all_goals first | exact ⟨by omega, by assumption⟩ | omega
  | b1 :: b2 :: b3 :: b4 :: rest => by
    have ih1 := decode_scalars rest
    have ih2 := decode_scalars (b4 :: rest)
    have ih3 := decode_scalars (b3 :: b4 :: rest)
    have ih4 := decode_scalars (b2 :: b3 :: b4 :: rest)
    intro x hx
    rw [utf8DecodeReplace.eq_5] at hx
    generalize hL1 : utf8DecodeReplace rest = L1 at hx ih1
    generalize hL2 : utf8DecodeReplace (b4 :: rest) = L2 at hx ih2
    generalize hL3 : utf8DecodeReplace (b3 :: b4 :: rest) = L3 at hx ih3
    generalize hL4 : utf8DecodeReplace (b2 :: b3 :: b4 :: rest) = L4 at hx ih4
    repeat' split at hx
    all_goals revert x
    all_goals try simp only [List.forall_mem_cons, forall_mem_nil_iff, and_true]
    all_goals simp only [ScalarValue, twoLead, threeLead, fourLead, isCont,
      cont3, cont4, val2, val3, val4, Bool.and_eq_true, Bool.or_eq_true,
      decide_eq_true_eq, ne_eq, decide_not, Bool.not_eq_true',
      decide_eq_false_iff_not, not_lt, not_le] at *
    all_goals first | exact ⟨by omega, by assumption⟩ | omega

/-- Universal-newlines translation keeps text valid: every codepoint it
emits is either a newline or one of the input's codepoints. -/
theorem nlNorm_scalars : ∀ s : Str, (∀ x ∈ s, ScalarValue x) →
    ∀ x ∈ nlNorm s, ScalarValue x
  | [], _ => by simp [nlNorm]
  | [c], h => by
    by_cases hc : c = 13
    · simp only [nlNorm, hc, if_true]
      intro x hx
      simp only [List.mem_singleton] at hx
      subst hx
      decide
    · simp only [nlNorm, hc, if_false]
      exact h
  | c :: c2 :: rest, h => by
    have htail : ∀ x ∈ c2 :: rest, ScalarValue x :=
      fun x hx => h x (List.mem_cons_of_mem c hx)
    have ih := nlNorm_scalars (c2 :: rest) htail
    have ih2 : ∀ x ∈ nlNorm rest, ScalarValue x :=
      nlNorm_scalars rest fun x hx => htail x (List.mem_cons_of_mem c2 hx)
    by_cases hc : c = 13
    · by_cases h2 : c2 = 10
      · subst h2
        simp only [nlNorm, hc, if_true]
        intro x hx
        rcases List.mem_cons.mp hx with rfl | hx
        · decide
        · exact ih2 x hx
      · simp only [nlNorm, hc, if_true, h2, if_false]
        intro x hx
        rcases List.mem_cons.mp hx with rfl | hx
        · decide
        · exact ih x hx
    · simp only [nlNorm, hc, if_false]
      intro x hx
      rcases List.mem_cons.mp hx with rfl | hx
      · exact h x (List.mem_cons_self _ _)
      · exact ih x hx

/-! ## Theorems settling the claims -/

/-- C5 counterexample: a `git show` failure whose reason is an unknown
revision — not a missing document — is still surfaced as `NotFoundError`,
because `get_contents_at_revision` catches every `CalledProcessError`.
The claim's distinct-Infrastructure-failure clause is false of the code. -/
theorem c5_counterexample :
    gitShow repo0 99 pg = .error .badRevision ∧
    get_contents_at_revision repo0 pg 99 = .error .notFound := by
  constructor
  · decide
  · decide

/-- C5 amended: `get_contents_at_revision` fails with `NotFound` exactly
when the revision is unknown or the document is absent in its tree; no
failure of the underlying `git show` escapes as anything else. -/
theorem c5_amended (r : Repo) (name : String) (rev : Rev) :
    (get_contents_at_revision r name rev = .error .notFound
      ↔ r.find rev = none ∨ fget (snap r rev) name = none) ∧
    get_contents_at_revision r name rev ≠ .error .processError := by
  unfold get_contents_at_revision gitShow
  cases hf : r.find rev with
  | none => simp [snap, hf]
  | some c =>
    cases hg : fget c.files name with
    | none => simp [snap, hf, hg]
    | some b => simp [snap, hf, hg]

/-- C6 counterexample: deleting a document that is absent at the base
revision raises the untyped `CalledProcessError` from `git rm`, not a
`NotFoundError` as the claim states. -/
theorem c6_counterexample :
    (update_file repo0 "Other.txt" authA none 0 "m").result
        = .error .processError ∧
    (update_file repo0 "Other.txt" authA none 0 "m").result
        ≠ .error .notFound := by
  constructor
  · decide
  · decide

/-- C6 amended: a delete whose target is absent at `base_revision` fails
with the untyped process error (the `git rm` exit), leaves the shared
repository untouched, and — the staging area still being clean — the
worktree session is removed without residue. -/
theorem c6_amended (r : Repo) (name : String) (author : Author)
    (msg : String) (rev : Rev) (c0 : Commit)
    (hadd : r.find rev = some c0) (habs : fget c0.files name = none) :
    update_file r name author none rev msg
      = ⟨.error .processError, r, false⟩ := by
  have hfc : findC r.commits rev = some c0 := hadd
  unfold update_file worktreeAdd
  rw [hadd]
  simp only [Option.map_some']
  unfold stageStep git_remove
  simp only [habs]
  simp [closeWith, wtDirty, snap, Repo.find, hfc, fmEq_refl]

/-- C6 amended, witness. -/
theorem c6_amended_witness :
    repo0.find 0 = some commit0 ∧ fget commit0.files "Other.txt" = none ∧
    update_file repo0 "Other.txt" authA none 0 "m"
      = ⟨.error .processError, repo0, false⟩ :=
  ⟨by decide, by decide,
   c6_amended repo0 "Other.txt" authA "m" 0 commit0 (by decide) (by decide)⟩

/-- C7 counterexample: a record whose separator line is `"x"` instead of
blank violates the spec's required record shape, yet `history` yields it
silently instead of failing: the blank line is read but never checked. -/
theorem c7_counterexample :
    specWellShaped badLines = false ∧
    history badLines = .ok [⟨[114], [116], [97], [115], 1, 2⟩] := by
  constructor
  · decide
  · decide

theorem history_ok_iff_looseShaped : ∀ lines : List Line,
    exceptIsOk (history lines) = looseShaped lines
  | [] => rfl
  | [_] => rfl
  | [_, _] => rfl
  | [_, _, _] => rfl
  | [_, _, _, _] => rfl
  | [_, _, _, _, _] => rfl
  | l1 :: l2 :: l3 :: l4 :: l5 :: l6 :: rest => by
    have ih := history_ok_iff_looseShaped rest
    unfold history looseShaped statsLineOk
    cases hs : pySplit l6 with
    | nil => simp [exceptIsOk, hs]
    | cons ins tl =>
      cases tl with
      | nil => simp [exceptIsOk, hs]
      | cons del tl2 =>
        cases hi : pyInt ins with
        | none => simp [exceptIsOk, hs, hi]
        | some i =>
          cases hd : pyInt del with
          | none => simp [exceptIsOk, hs, hi, hd]
          | some d =>
            cases hr : history rest with
            | ok es =>
              rw [hr] at ih
              simp [exceptIsOk, hs, hi, hd, hr, ← ih]
            | error e =>
              rw [hr] at ih
              simp [exceptIsOk, hs, hi, hd, hr, ← ih]

/-- C7 amended: the traversal fails loudly exactly on truncated records
(fewer than six lines remain: `StopIteration` becomes `RuntimeError` under
PEP 479) and on numstat lines without two `int()`-convertible leading
tokens (`ValueError`); the separator and header lines are consumed without
their contents being validated. -/
theorem c7_amended (lines : List Line) :
    exceptIsOk (history lines) = looseShaped lines :=
  history_ok_iff_looseShaped lines

/-- C8: the rebase step resets the session onto `index_head` — the head
read from the repository at that very moment — so the checkout it replays
onto is the current head's snapshot, not the stale session state, and the
whole rebase phase is independent of the worktree state left by staging. -/
theorem c8_rebase_reads_fresh_head (r : Repo) (wt wt' : Wt) (r1 : Rev)
    (h : wt.head ≠ git_index_head r) :
    (git_reset r wt (git_index_head r)).head = r.head ∧
    (git_reset r wt (git_index_head r)).head ≠ wt.head ∧
    rebasePhase r wt r1 = rebasePhase r wt' r1 :=
  ⟨rfl, fun he => h he.symm, rfl⟩

/-- C8 witness: a session opened at revision 0 while the shared head has
moved to revision 1 is reset onto 1, not back onto its stale base. -/
theorem c8_witness :
    (⟨0, [(pg, [97])], false⟩ : Wt).head ≠ git_index_head repo1 ∧
    ((git_reset repo1 ⟨0, [(pg, [97])], false⟩ (git_index_head repo1)).head
        = repo1.head ∧
     (git_reset repo1 ⟨0, [(pg, [97])], false⟩ (git_index_head repo1)).head
        ≠ (⟨0, [(pg, [97])], false⟩ : Wt).head ∧
     rebasePhase repo1 ⟨0, [(pg, [97])], false⟩ 2
        = rebasePhase repo1 ⟨1, [], false⟩ 2) :=
  ⟨by decide,
   c8_rebase_reads_fresh_head repo1 ⟨0, [(pg, [97])], false⟩ ⟨1, [], false⟩ 2
     (by decide)⟩

/-- C10: whenever the document exists at the revision, the read returns
`ok` with the replacement-decoded, newline-translated text — decoding is a
total function, so no decoding error can escape — and every codepoint of
the returned string is a Unicode scalar value (malformed bytes come back
as U+FFFD rather than failing the read). -/
theorem c10_read_total (r : Repo) (name : String) (rev : Rev)
    (c : Commit) (b : Bytes) (h1 : r.find rev = some c)
    (h2 : fget c.files name = some b) :
    get_contents_at_revision r name rev
        = .ok (nlNorm (utf8DecodeReplace b)) ∧
    ∀ x ∈ nlNorm (utf8DecodeReplace b), ScalarValue x := by
  constructor
  · simp [get_contents_at_revision, gitShow, h1, h2]
  · exact nlNorm_scalars _ (decode_scalars b)

/-- C10 witness: a blob holding the single invalid byte 0xFF reads back
as `ok "�"`. -/
theorem c10_witness :
    repoBin.find 0 = some commitBin ∧
    fget commitBin.files "Bin.txt" = some [255] ∧
    nlNorm (utf8DecodeReplace [255]) = [0xFFFD] ∧
    (get_contents_at_revision repoBin "Bin.txt" 0
        = .ok (nlNorm (utf8DecodeReplace [255])) ∧
     ∀ x ∈ nlNorm (utf8DecodeReplace [255]), ScalarValue x) :=
  ⟨by decide, by decide, by decide,
   c10_read_total repoBin "Bin.txt" 0 commitBin [255] (by decide) (by decide)⟩

/-! ## Lemmas: the write pipeline -/

theorem closeWith_cases (r : Repo) (wt : Wt) (res : Except GitkiErr (Option Rev)) :
    closeWith r wt res = ⟨.error .processError, r, true⟩ ∨
    closeWith r wt res = ⟨res, r, false⟩ := by
  unfold closeWith
  split
  · exact Or.inl rfl
  · exact Or.inr rfl

theorem closeWith_error_processError (r : Repo) (wt : Wt) :
    (closeWith r wt (.error .processError)).result = .error .processError := by
  unfold closeWith
  split <;> rfl

theorem closeWith_repo (r : Repo) (wt : Wt) (res : Except GitkiErr (Option Rev)) :
    (closeWith r wt res).repo = r := by
  unfold closeWith
  split <;> rfl

theorem git_commit_some {r : Repo} {wt : Wt} {msg : String} {a : Author}
    {rv : Rev} {r2 : Repo} {wt2 : Wt}
    (h : git_commit r wt msg a = some (rv, r2, wt2)) :
    fmEq wt.files (snap r wt.head) = false ∧ rv = r.nextRev ∧
    r2 = (addCommit r ⟨some wt.head, a, msg, wt.files⟩).2 ∧
    wt2 = { wt with head := r.nextRev } := by
  unfold git_commit at h
  split at h
  · exact absurd h (by simp)
  · rename_i hne
    simp only [Option.some_inj, Prod.mk.injEq] at h
    obtain ⟨h1, h2, h3⟩ := h
    exact ⟨Bool.eq_false_iff.mpr hne, h1.symm, h2.symm, h3.symm⟩

theorem cherry_pick_wt_ok {r : Repo} {wt : Wt} {pick rv : Rev} {r' : Repo}
    {wt' : Wt} (h : git_cherry_pick_wt r wt pick = .ok rv r' wt') :
    ∃ c m, r.find pick = some c ∧
      merge3 (parentFiles r c) wt.files c.files = some m ∧
      fmEq m wt.files = false ∧ rv = r.nextRev ∧
      r' = (addCommit r ⟨some wt.head, c.author, c.message, m⟩).2 ∧
      wt' = ⟨r.nextRev, m, false⟩ := by
  unfold git_cherry_pick_wt at h
  cases hf : r.find pick with
  | none => simp only [hf] at h; exact absurd h (by simp)
  | some c =>
    simp only [hf] at h
    cases hm : merge3 (parentFiles r c) wt.files c.files with
    | none => simp only [hm] at h; exact absurd h (by simp)
    | some m =>
      simp only [hm] at h
      split at h
      · exact absurd h (by simp)
      · rename_i hne
        simp only [PickResult.ok.injEq] at h
        obtain ⟨h1, h2, h3⟩ := h
        exact ⟨c, m, rfl, hm, Bool.eq_false_iff.mpr hne, h1.symm, h2.symm,
          h3.symm⟩

theorem cherry_pick_repo_some {r : Repo} {pick rv : Rev} {r4 : Repo}
    (h : git_cherry_pick_repo r pick = some (rv, r4)) :
    ∃ c m, r.find pick = some c ∧
      merge3 (parentFiles r c) (snap r r.head) c.files = some m ∧
      fmEq m (snap r r.head) = false ∧ rv = r.nextRev ∧
      r4 = { (addCommit r ⟨some r.head, c.author, c.message, m⟩).2
              with head := r.nextRev } := by
  unfold git_cherry_pick_repo at h
  cases hf : r.find pick with
  | none => simp only [hf] at h; exact absurd h (by simp)
  | some c =>
    simp only [hf] at h
    cases hm : merge3 (parentFiles r c) (snap r r.head) c.files with
    | none => simp only [hm] at h; exact absurd h (by simp)
    | some m =>
      simp only [hm] at h
      split at h
      · exact absurd h (by simp)
      · rename_i hne
        simp only [Option.some_inj, Prod.mk.injEq] at h
        obtain ⟨h1, h2⟩ := h
        exact ⟨c, m, rfl, hm, Bool.eq_false_iff.mpr hne, h1.symm, h2.symm⟩

theorem find_ignores_head (r : Repo) (h rev : Rev) :
    ({ r with head := h } : Repo).find rev = r.find rev := rfl

/-- C1 counterexample: a successful write's Python return value is `None`,
never the new head revision — the function body has no `return`. -/
theorem c1_counterexample :
    (update_file repo0 pg authA (some (.text [98])) 0 "m").result = .ok none ∧
    (update_file repo0 pg authA (some (.text [98])) 0 "m").result
      ≠ .ok (some (update_file repo0 pg authA
          (some (.text [98])) 0 "m").repo.head) := by
  constructor
  · decide
  · decide

/-- C1 amended: when every pipeline step succeeds, `update_file` publishes
a fresh commit into the shared repository — the head advances to a new
revision whose commit's parent is the pre-write head — but the function
returns `None` rather than that revision. -/
theorem c1_amended (r : Repo) (name : String) (author : Author)
    (contents : Option PyContent) (rev : Rev) (msg : String) (v : Option Rev)
    (hwf : RepoWF r)
    (hok : (update_file r name author contents rev msg).result = .ok v) :
    v = none ∧
    (update_file r name author contents rev msg).repo.head ≠ r.head ∧
    ∃ c, (update_file r name author contents rev msg).repo.find
           (update_file r name author contents rev msg).repo.head = some c ∧
         c.parent = some r.head := by
  unfold update_file at hok ⊢
  cases hadd : worktreeAdd r rev with
  | none => simp only [hadd] at hok; exact absurd hok (by simp)
  | some wt0 =>
    simp only [hadd] at hok ⊢
    cases hst : stageStep wt0 name contents with
    | none =>
      simp only [hst, closeWith_error_processError] at hok
      exact absurd hok (by simp)
    | some wt1 =>
      simp only [hst] at hok ⊢
      cases hcm : git_commit r wt1 (defaultMessage name msg) author with
      | none =>
        simp only [hcm, closeWith_error_processError] at hok
        exact absurd hok (by simp)
      | some trip =>
        obtain ⟨rv1, r2, wt2⟩ := trip
        simp only [hcm] at hok ⊢
        cases hrb : rebasePhase r2 wt2 rv1 with
        | conflict wt3 =>
          simp only [hrb, closeWith_error_processError] at hok
          exact absurd hok (by simp)
        | failed wt3 =>
          simp only [hrb, closeWith_error_processError] at hok
          exact absurd hok (by simp)
        | ok rv2 r3 wt4 =>
          simp only [hrb] at hok ⊢
          cases hpb : git_cherry_pick_repo r3 rv2 with
          | none =>
            simp only [hpb, closeWith_error_processError] at hok
            exact absurd hok (by simp)
          | some pair =>
            obtain ⟨rvP, r4⟩ := pair
            simp only [hpb] at hok ⊢
            rcases closeWith_cases r4 wt4 (.ok none) with hcl | hcl
            · rw [hcl] at hok; exact absurd hok (by simp)
            · rw [hcl] at hok ⊢
              obtain ⟨hcne, hrv1, hr2, hwt2⟩ := git_commit_some hcm
              obtain ⟨c2, m2, hfind2, hm2, hne2, hrv2, hr3, hwt4⟩ :=
                cherry_pick_wt_ok hrb
              obtain ⟨cp, mp, hfindp, hmp, hnep, hrvp, hr4⟩ :=
                cherry_pick_repo_some hpb
              have h2h : r2.head = r.head := by rw [hr2]; rfl
              have h3h : r3.head = r.head := by rw [hr3, addCommit_head, h2h]
              have h2n : r2.nextRev = r.nextRev + 1 := by
                rw [hr2, addCommit_nextRev]
              have h3n : r3.nextRev = r.nextRev + 2 := by
                rw [hr3, addCommit_nextRev, h2n]
              refine ⟨by simpa using hok.symm, ?_, ?_⟩
              · show r4.head ≠ r.head
                rw [hr4]
                show r3.nextRev ≠ r.head
                obtain ⟨hwh, -⟩ := hwf
                intro he
                rw [h3n] at he
                rw [← he] at hwh
                exact absurd hwh (Nat.not_lt.mpr (Nat.le_add_right _ 2))
              · refine ⟨⟨some r3.head, cp.author, cp.message, mp⟩, ?_, ?_⟩
                · show r4.find r4.head = _
                  rw [hr4]
                  show ((addCommit r3 _).2.find r3.nextRev) = _
                  exact find_addCommit_self r3 _
                · simp [h3h]

/-- C1 amended, witness: a concrete successful write on the one-commit
fixture returns `None` while the head advances to a fresh commit. -/
theorem c1_amended_witness :
    RepoWF repo0 ∧
    (update_file repo0 pg authA (some (.text [98])) 0 "m").result
      = .ok none ∧
    ((none : Option Rev) = none ∧
     (update_file repo0 pg authA (some (.text [98])) 0 "m").repo.head
        ≠ repo0.head ∧
     ∃ c, (update_file repo0 pg authA (some (.text [98])) 0 "m").repo.find
            (update_file repo0 pg authA
              (some (.text [98])) 0 "m").repo.head = some c ∧
          c.parent = some repo0.head) :=
  ⟨by decide, by decide,
   c1_amended repo0 pg authA (some (.text [98])) 0 "m" none (by decide)
     (by decide)⟩

/-- C2 counterexample: a write whose rebase cherry-pick hits a concurrent
conflicting edit escapes as the untyped `CalledProcessError` — the code
defines no `Conflict` type at all — falsifying "the failure is never an
untyped process error". -/
theorem c2_counterexample :
    (update_file repo1 pg authA (some (.text [89])) 0 "m").result
      = .error .processError := by
  decide

/-- C2 amended: when the staged commit exists and the cherry-pick replay
fails — at the rebase step or at the publish step — the write fails with
the untyped process error (there is no typed `Conflict`), and the shared
repository's head is unchanged; nothing is retried. -/
theorem c2_amended (r : Repo) (name : String) (author : Author)
    (contents : Option PyContent) (rev : Rev) (msg : String)
    (wt0 wt1 : Wt) (rv1 : Rev) (r2 : Repo) (wt2 : Wt)
    (hadd : worktreeAdd r rev = some wt0)
    (hst : stageStep wt0 name contents = some wt1)
    (hcm : git_commit r wt1 (defaultMessage name msg) author
            = some (rv1, r2, wt2))
    (hfail : (∃ wt3, rebasePhase r2 wt2 rv1 = .conflict wt3) ∨
             (∃ rv2 r3 wt4, rebasePhase r2 wt2 rv1 = .ok rv2 r3 wt4 ∧
               git_cherry_pick_repo r3 rv2 = none)) :
    (update_file r name author contents rev msg).result
        = .error .processError ∧
    (update_file r name author contents rev msg).repo.head = r.head := by
  unfold update_file
  simp only [hadd, hst, hcm]
  obtain ⟨hcne, hrv1, hr2, hwt2⟩ := git_commit_some hcm
  have h2h : r2.head = r.head := by rw [hr2]; rfl
  rcases hfail with ⟨wt3, hrb⟩ | ⟨rv2, r3, wt4, hrb, hpb⟩
  · simp only [hrb]
    exact ⟨closeWith_error_processError r2 wt3, by rw [closeWith_repo, h2h]⟩
  · simp only [hrb, hpb]
    obtain ⟨c2, m2, hfind2, hm2, hne2, hrv2, hr3, hwt4⟩ := cherry_pick_wt_ok hrb
    have h3h : r3.head = r.head := by rw [hr3, addCommit_head, h2h]
    exact ⟨closeWith_error_processError r3 wt4, by rw [closeWith_repo, h3h]⟩

/-- C2 amended, witness: the concrete conflicting-edit scenario satisfies
the hypotheses, with the rebase cherry-pick conflicting. -/
theorem c2_amended_witness :
    worktreeAdd repo1 0 = some ⟨0, [(pg, [97])], false⟩ ∧
    stageStep ⟨0, [(pg, [97])], false⟩ pg (some (.text [89]))
      = some ⟨0, [(pg, [89])], false⟩ ∧
    ((update_file repo1 pg authA (some (.text [89])) 0 "m").result
        = .error .processError ∧
     (update_file repo1 pg authA (some (.text [89])) 0 "m").repo.head
        = repo1.head) := by
  refine ⟨by decide, by decide,
    c2_amended repo1 pg authA (some (.text [89])) 0 "m"
      ⟨0, [(pg, [97])], false⟩ ⟨0, [(pg, [89])], false⟩
      2 ⟨1, [(2, ⟨some 0, authA, "m", [(pg, [89])]⟩), (1, commit1),
        (0, commit0)], 3⟩ ⟨2, [(pg, [89])], false⟩
      (by decide) (by decide) (by decide)
      (Or.inl ⟨⟨1, [(pg, [88])], true⟩, by decide⟩)⟩

/-- C4 (code bug): after a conflicting cherry-pick the session worktree is
dirty, `git worktree remove` (run without `--force` by
`GitWorktree.__exit__`) refuses to remove it, and the temporary directory
removal is never reached: registration and directory are both left
behind.  A successful write, whose worktree ends clean, is removed. -/
theorem c4_residue_on_conflict :
    (update_file repo1 pg authA (some (.text [89])) 0 "m").residue = true ∧
    (update_file repo0 pg authA (some (.text [98])) 0 "m").residue = false := by
  constructor
  · decide
  · decide

/-! ## Lemmas: clean replay onto the base it was built from -/

theorem merge3_self (F T : FileMap) : merge3 F F T = some (selfMerge F T) :=
  merge3_ours_base F T

theorem fget_selfMerge (F T : FileMap) (k : String) :
    fget (selfMerge F T) k = fget T k :=
  merge3_ours_base_fget F T k

theorem snap_eq_of_find {r : Repo} {rev : Rev} {c : Commit}
    (h : r.find rev = some c) : snap r rev = c.files := by
  unfold snap
  rw [h]
  rfl

/-- A cherry-pick in a worktree that sits exactly at the picked commit's
parent applies cleanly, and the resulting tree is the picked commit's. -/
theorem pick_onto_base {R : Repo} {pick h : Rev} {C : Commit} {k0 : String}
    {v0 : Bytes} (hfind : R.find pick = some C) (hpar : C.parent = some h)
    (hne : fget C.files k0 = some v0)
    (hbase : fget (snap R h) k0 ≠ some v0) :
    git_cherry_pick_wt R ⟨h, snap R h, false⟩ pick
      = .ok R.nextRev
          (addCommit R ⟨some h, C.author, C.message,
            selfMerge (snap R h) C.files⟩).2
          ⟨R.nextRev, selfMerge (snap R h) C.files, false⟩ := by
  unfold git_cherry_pick_wt
  rw [hfind]
  have hpf : parentFiles R C = snap R h := by
    unfold parentFiles
    rw [hpar]
  have hnemp : fmEq (selfMerge (snap R h) C.files) (snap R h) = false :=
    fmEq_false_of (by rw [fget_selfMerge]; exact hne) hbase
  simp only [hpf, merge3_self, hnemp, Bool.false_eq_true, if_false]
  rfl

/-- A publish cherry-pick of a commit built on the shared head applies
cleanly and advances the head to a fresh commit carrying its tree. -/
theorem pick_repo_onto_base {R : Repo} {pick : Rev} {C : Commit}
    {k0 : String} {v0 : Bytes} (hfind : R.find pick = some C)
    (hpar : C.parent = some R.head) (hne : fget C.files k0 = some v0)
    (hbase : fget (snap R R.head) k0 ≠ some v0) :
    git_cherry_pick_repo R pick
      = some (R.nextRev,
          { (addCommit R ⟨some R.head, C.author, C.message,
              selfMerge (snap R R.head) C.files⟩).2 with head := R.nextRev }) := by
  unfold git_cherry_pick_repo
  rw [hfind]
  have hpf : parentFiles R C = snap R R.head := by
    unfold parentFiles
    rw [hpar]
  have hnemp : fmEq (selfMerge (snap R R.head) C.files) (snap R R.head) = false :=
    fmEq_false_of (by rw [fget_selfMerge]; exact hne) hbase
  simp only [hpf, merge3_self, hnemp, Bool.false_eq_true, if_false]
  rfl

/-- C3 counterexample: a successful write of `"a\r\nb"` reads back as
`"a\nb"` — the carriage return is lost to the universal-newlines
translation of the text-mode `git show` pipe — so the round-trip is not
exact for every content. -/
theorem c3_counterexample :
    (update_file repo0 pg authA (some (.text [97, 13, 10, 98])) 0 "m").result
        = .ok none ∧
    get_contents_at_revision
        (update_file repo0 pg authA (some (.text [97, 13, 10, 98])) 0 "m").repo
        pg
        (update_file repo0 pg authA
          (some (.text [97, 13, 10, 98])) 0 "m").repo.head
      = .ok [97, 10, 98] ∧
    ([97, 10, 98] : Str) ≠ [97, 13, 10, 98] := by
  refine ⟨by decide, by decide, by decide⟩

set_option maxHeartbeats 1600000 in
/-- C3 amended: for carriage-return-free text written against the current
head (and actually changing the document, else `git commit` refuses), the
write succeeds and reading the document at the resulting head returns the
content exactly. -/
theorem c3_amended (r : Repo) (name : String) (author : Author) (msg : String)
    (c : Str) (c0 : Commit) (hwf : RepoWF r) (hc0 : r.find r.head = some c0)
    (hsc : ∀ x ∈ c, ScalarValue x) (hcr : 13 ∉ c)
    (hch : fget c0.files name ≠ some (utf8Encode c)) :
    (update_file r name author (some (.text c)) r.head msg).result
        = .ok none ∧
    get_contents_at_revision
        (update_file r name author (some (.text c)) r.head msg).repo name
        (update_file r name author (some (.text c)) r.head msg).repo.head
      = .ok c := by
  obtain ⟨hwh, hwc⟩ := hwf
  have hsnap : snap r r.head = c0.files := by simp [snap, hc0]
  have hadd : worktreeAdd r r.head = some ⟨r.head, c0.files, false⟩ := by
    unfold worktreeAdd
    rw [hc0]
    rfl
  have hstage : stageStep ⟨r.head, c0.files, false⟩ name (some (.text c))
      = some ⟨r.head, fset c0.files name (utf8Encode c), false⟩ := rfl
  have hne1 : fmEq (fset c0.files name (utf8Encode c)) c0.files = false :=
    fmEq_false_of (fget_fset_self c0.files name (utf8Encode c)) hch
  have hcommit : git_commit r ⟨r.head, fset c0.files name (utf8Encode c), false⟩
      (defaultMessage name msg) author
      = some (r.nextRev,
          (addCommit r ⟨some r.head, author, defaultMessage name msg,
            fset c0.files name (utf8Encode c)⟩).2,
          ⟨r.nextRev, fset c0.files name (utf8Encode c), false⟩) := by
    unfold git_commit
    simp only [hsnap, hne1, Bool.false_eq_true, if_false]
    rfl
  have hsnap2 : snap (addCommit r ⟨some r.head, author, defaultMessage name msg,
      fset c0.files name (utf8Encode c)⟩).2 r.head = c0.files := by
    rw [snap_addCommit_ne r _ r.head (Nat.ne_of_lt hwh), hsnap]
  have hpick1 := pick_onto_base
    (find_addCommit_self r ⟨some r.head, author, defaultMessage name msg,
      fset c0.files name (utf8Encode c)⟩)
    (rfl : (⟨some r.head, author, defaultMessage name msg,
      fset c0.files name (utf8Encode c)⟩ : Commit).parent = some r.head)
    (fget_fset_self c0.files name (utf8Encode c))
    (by rw [hsnap2]; exact hch)
  have hne2 : r.head ≠ (addCommit r ⟨some r.head, author, defaultMessage name msg, fset c0.files name (utf8Encode c)⟩).2.nextRev := by
    show r.head ≠ r.nextRev + 1
    exact Nat.ne_of_lt (Nat.lt_succ_of_lt hwh)
  have hsnap3 : snap (addCommit (addCommit r ⟨some r.head, author, defaultMessage name msg, fset c0.files name (utf8Encode c)⟩).2 ⟨some r.head, author, defaultMessage name msg, selfMerge (snap (addCommit r ⟨some r.head, author, defaultMessage name msg, fset c0.files name (utf8Encode c)⟩).2 r.head) (fset c0.files name (utf8Encode c))⟩).2 r.head = c0.files := by
    rw [snap_addCommit_ne (addCommit r ⟨some r.head, author, defaultMessage name msg, fset c0.files name (utf8Encode c)⟩).2 ⟨some r.head, author, defaultMessage name msg, selfMerge (snap (addCommit r ⟨some r.head, author, defaultMessage name msg, fset c0.files name (utf8Encode c)⟩).2 r.head) (fset c0.files name (utf8Encode c))⟩ r.head hne2, hsnap2]
  have hgetC2 : fget (Commit.files ⟨some r.head, author, defaultMessage name msg, selfMerge (snap (addCommit r ⟨some r.head, author, defaultMessage name msg, fset c0.files name (utf8Encode c)⟩).2 r.head) (fset c0.files name (utf8Encode c))⟩) name = some (utf8Encode c) := by
    show fget (selfMerge (snap (addCommit r ⟨some r.head, author, defaultMessage name msg, fset c0.files name (utf8Encode c)⟩).2 r.head) (fset c0.files name (utf8Encode c))) name = _
    rw [fget_selfMerge]
    exact fget_fset_self c0.files name (utf8Encode c)
  have hpub := pick_repo_onto_base
    (find_addCommit_self (addCommit r ⟨some r.head, author, defaultMessage name msg, fset c0.files name (utf8Encode c)⟩).2 ⟨some r.head, author, defaultMessage name msg, selfMerge (snap (addCommit r ⟨some r.head, author, defaultMessage name msg, fset c0.files name (utf8Encode c)⟩).2 r.head) (fset c0.files name (utf8Encode c))⟩)
    (rfl : (Commit.parent ⟨some r.head, author, defaultMessage name msg, selfMerge (snap (addCommit r ⟨some r.head, author, defaultMessage name msg, fset c0.files name (utf8Encode c)⟩).2 r.head) (fset c0.files name (utf8Encode c))⟩) = some ((addCommit (addCommit r ⟨some r.head, author, defaultMessage name msg, fset c0.files name (utf8Encode c)⟩).2 ⟨some r.head, author, defaultMessage name msg, selfMerge (snap (addCommit r ⟨some r.head, author, defaultMessage name msg, fset c0.files name (utf8Encode c)⟩).2 r.head) (fset c0.files name (utf8Encode c))⟩).2.head))
    hgetC2
    (by show fget (snap (addCommit (addCommit r ⟨some r.head, author, defaultMessage name msg, fset c0.files name (utf8Encode c)⟩).2 ⟨some r.head, author, defaultMessage name msg, selfMerge (snap (addCommit r ⟨some r.head, author, defaultMessage name msg, fset c0.files name (utf8Encode c)⟩).2 r.head) (fset c0.files name (utf8Encode c))⟩).2 r.head) name ≠ some (utf8Encode c)
        rw [hsnap3]
        exact hch)
  have hupdate : update_file r name author (some (.text c)) r.head msg
      = closeWith (⟨(addCommit (addCommit r ⟨some r.head, author, defaultMessage name msg, fset c0.files name (utf8Encode c)⟩).2 ⟨some r.head, author, defaultMessage name msg, selfMerge (snap (addCommit r ⟨some r.head, author, defaultMessage name msg, fset c0.files name (utf8Encode c)⟩).2 r.head) (fset c0.files name (utf8Encode c))⟩).2.nextRev, (addCommit (addCommit (addCommit r ⟨some r.head, author, defaultMessage name msg, fset c0.files name (utf8Encode c)⟩).2 ⟨some r.head, author, defaultMessage name msg, selfMerge (snap (addCommit r ⟨some r.head, author, defaultMessage name msg, fset c0.files name (utf8Encode c)⟩).2 r.head) (fset c0.files name (utf8Encode c))⟩).2 ⟨some r.head, author, defaultMessage name msg, selfMerge (snap (addCommit (addCommit r ⟨some r.head, author, defaultMessage name msg, fset c0.files name (utf8Encode c)⟩).2 ⟨some r.head, author, defaultMessage name msg, selfMerge (snap (addCommit r ⟨some r.head, author, defaultMessage name msg, fset c0.files name (utf8Encode c)⟩).2 r.head) (fset c0.files name (utf8Encode c))⟩).2 r.head) (selfMerge (snap (addCommit r ⟨some r.head, author, defaultMessage name msg, fset c0.files name (utf8Encode c)⟩).2 r.head) (fset c0.files name (utf8Encode c)))⟩).2.commits, (addCommit (addCommit (addCommit r ⟨some r.head, author, defaultMessage name msg, fset c0.files name (utf8Encode c)⟩).2 ⟨some r.head, author, defaultMessage name msg, selfMerge (snap (addCommit r ⟨some r.head, author, defaultMessage name msg, fset c0.files name (utf8Encode c)⟩).2 r.head) (fset c0.files name (utf8Encode c))⟩).2 ⟨some r.head, author, defaultMessage name msg, selfMerge (snap (addCommit (addCommit r ⟨some r.head, author, defaultMessage name msg, fset c0.files name (utf8Encode c)⟩).2 ⟨some r.head, author, defaultMessage name msg, selfMerge (snap (addCommit r ⟨some r.head, author, defaultMessage name msg, fset c0.files name (utf8Encode c)⟩).2 r.head) (fset c0.files name (utf8Encode c))⟩).2 r.head) (selfMerge (snap (addCommit r ⟨some r.head, author, defaultMessage name msg, fset c0.files name (utf8Encode c)⟩).2 r.head) (fset c0.files name (utf8Encode c)))⟩).2.nextRev⟩ : Repo) (⟨(addCommit r ⟨some r.head, author, defaultMessage name msg, fset c0.files name (utf8Encode c)⟩).2.nextRev, selfMerge (snap (addCommit r ⟨some r.head, author, defaultMessage name msg, fset c0.files name (utf8Encode c)⟩).2 r.head) (fset c0.files name (utf8Encode c)), false⟩ : Wt) (.ok none) := by
    unfold update_file rebasePhase
    simp only [hadd, hstage, hcommit]
    rw [show git_reset (addCommit r ⟨some r.head, author, defaultMessage name msg,
        fset c0.files name (utf8Encode c)⟩).2
        ⟨r.nextRev, fset c0.files name (utf8Encode c), false⟩
        (git_index_head (addCommit r ⟨some r.head, author,
          defaultMessage name msg, fset c0.files name (utf8Encode c)⟩).2)
      = ⟨r.head, snap (addCommit r ⟨some r.head, author, defaultMessage name msg,
          fset c0.files name (utf8Encode c)⟩).2 r.head, false⟩ from rfl]
    simp only [hpick1]
    simp only [hpub]
    rfl
  -- the session worktree sits clean at the rebased commit, so
  -- `git worktree remove` succeeds and the outcome is the ok-tuple
  have hfind4 : (⟨(addCommit (addCommit r ⟨some r.head, author, defaultMessage name msg, fset c0.files name (utf8Encode c)⟩).2 ⟨some r.head, author, defaultMessage name msg, selfMerge (snap (addCommit r ⟨some r.head, author, defaultMessage name msg, fset c0.files name (utf8Encode c)⟩).2 r.head) (fset c0.files name (utf8Encode c))⟩).2.nextRev, (addCommit (addCommit (addCommit r ⟨some r.head, author, defaultMessage name msg, fset c0.files name (utf8Encode c)⟩).2 ⟨some r.head, author, defaultMessage name msg, selfMerge (snap (addCommit r ⟨some r.head, author, defaultMessage name msg, fset c0.files name (utf8Encode c)⟩).2 r.head) (fset c0.files name (utf8Encode c))⟩).2 ⟨some r.head, author, defaultMessage name msg, selfMerge (snap (addCommit (addCommit r ⟨some r.head, author, defaultMessage name msg, fset c0.files name (utf8Encode c)⟩).2 ⟨some r.head, author, defaultMessage name msg, selfMerge (snap (addCommit r ⟨some r.head, author, defaultMessage name msg, fset c0.files name (utf8Encode c)⟩).2 r.head) (fset c0.files name (utf8Encode c))⟩).2 r.head) (selfMerge (snap (addCommit r ⟨some r.head, author, defaultMessage name msg, fset c0.files name (utf8Encode c)⟩).2 r.head) (fset c0.files name (utf8Encode c)))⟩).2.commits, (addCommit (addCommit (addCommit r ⟨some r.head, author, defaultMessage name msg, fset c0.files name (utf8Encode c)⟩).2 ⟨some r.head, author, defaultMessage name msg, selfMerge (snap (addCommit r ⟨some r.head, author, defaultMessage name msg, fset c0.files name (utf8Encode c)⟩).2 r.head) (fset c0.files name (utf8Encode c))⟩).2 ⟨some r.head, author, defaultMessage name msg, selfMerge (snap (addCommit (addCommit r ⟨some r.head, author, defaultMessage name msg, fset c0.files name (utf8Encode c)⟩).2 ⟨some r.head, author, defaultMessage name msg, selfMerge (snap (addCommit r ⟨some r.head, author, defaultMessage name msg, fset c0.files name (utf8Encode c)⟩).2 r.head) (fset c0.files name (utf8Encode c))⟩).2 r.head) (selfMerge (snap (addCommit r ⟨some r.head, author, defaultMessage name msg, fset c0.files name (utf8Encode c)⟩).2 r.head) (fset c0.files name (utf8Encode c)))⟩).2.nextRev⟩ : Repo).find ((addCommit r ⟨some r.head, author, defaultMessage name msg, fset c0.files name (utf8Encode c)⟩).2.nextRev) = some (⟨some r.head, author, defaultMessage name msg, selfMerge (snap (addCommit r ⟨some r.head, author, defaultMessage name msg, fset c0.files name (utf8Encode c)⟩).2 r.head) (fset c0.files name (utf8Encode c))⟩ : Commit) := by
    show ((addCommit (addCommit (addCommit r ⟨some r.head, author, defaultMessage name msg, fset c0.files name (utf8Encode c)⟩).2 ⟨some r.head, author, defaultMessage name msg, selfMerge (snap (addCommit r ⟨some r.head, author, defaultMessage name msg, fset c0.files name (utf8Encode c)⟩).2 r.head) (fset c0.files name (utf8Encode c))⟩).2 ⟨some r.head, author, defaultMessage name msg, selfMerge (snap (addCommit (addCommit r ⟨some r.head, author, defaultMessage name msg, fset c0.files name (utf8Encode c)⟩).2 ⟨some r.head, author, defaultMessage name msg, selfMerge (snap (addCommit r ⟨some r.head, author, defaultMessage name msg, fset c0.files name (utf8Encode c)⟩).2 r.head) (fset c0.files name (utf8Encode c))⟩).2 r.head) (selfMerge (snap (addCommit r ⟨some r.head, author, defaultMessage name msg, fset c0.files name (utf8Encode c)⟩).2 r.head) (fset c0.files name (utf8Encode c)))⟩).2).find ((addCommit r ⟨some r.head, author, defaultMessage name msg, fset c0.files name (utf8Encode c)⟩).2.nextRev) = _
    rw [find_addCommit_ne (addCommit (addCommit r ⟨some r.head, author, defaultMessage name msg, fset c0.files name (utf8Encode c)⟩).2 ⟨some r.head, author, defaultMessage name msg, selfMerge (snap (addCommit r ⟨some r.head, author, defaultMessage name msg, fset c0.files name (utf8Encode c)⟩).2 r.head) (fset c0.files name (utf8Encode c))⟩).2 ⟨some r.head, author, defaultMessage name msg, selfMerge (snap (addCommit (addCommit r ⟨some r.head, author, defaultMessage name msg, fset c0.files name (utf8Encode c)⟩).2 ⟨some r.head, author, defaultMessage name msg, selfMerge (snap (addCommit r ⟨some r.head, author, defaultMessage name msg, fset c0.files name (utf8Encode c)⟩).2 r.head) (fset c0.files name (utf8Encode c))⟩).2 r.head) (selfMerge (snap (addCommit r ⟨some r.head, author, defaultMessage name msg, fset c0.files name (utf8Encode c)⟩).2 r.head) (fset c0.files name (utf8Encode c)))⟩ ((addCommit r ⟨some r.head, author, defaultMessage name msg, fset c0.files name (utf8Encode c)⟩).2.nextRev)
      (by show (addCommit r ⟨some r.head, author, defaultMessage name msg, fset c0.files name (utf8Encode c)⟩).2.nextRev ≠ (addCommit r ⟨some r.head, author, defaultMessage name msg, fset c0.files name (utf8Encode c)⟩).2.nextRev + 1
          exact Nat.ne_of_lt (Nat.lt_succ_self _))]
    exact find_addCommit_self (addCommit r ⟨some r.head, author, defaultMessage name msg, fset c0.files name (utf8Encode c)⟩).2 ⟨some r.head, author, defaultMessage name msg, selfMerge (snap (addCommit r ⟨some r.head, author, defaultMessage name msg, fset c0.files name (utf8Encode c)⟩).2 r.head) (fset c0.files name (utf8Encode c))⟩
  have hsnap4 : snap (⟨(addCommit (addCommit r ⟨some r.head, author, defaultMessage name msg, fset c0.files name (utf8Encode c)⟩).2 ⟨some r.head, author, defaultMessage name msg, selfMerge (snap (addCommit r ⟨some r.head, author, defaultMessage name msg, fset c0.files name (utf8Encode c)⟩).2 r.head) (fset c0.files name (utf8Encode c))⟩).2.nextRev, (addCommit (addCommit (addCommit r ⟨some r.head, author, defaultMessage name msg, fset c0.files name (utf8Encode c)⟩).2 ⟨some r.head, author, defaultMessage name msg, selfMerge (snap (addCommit r ⟨some r.head, author, defaultMessage name msg, fset c0.files name (utf8Encode c)⟩).2 r.head) (fset c0.files name (utf8Encode c))⟩).2 ⟨some r.head, author, defaultMessage name msg, selfMerge (snap (addCommit (addCommit r ⟨some r.head, author, defaultMessage name msg, fset c0.files name (utf8Encode c)⟩).2 ⟨some r.head, author, defaultMessage name msg, selfMerge (snap (addCommit r ⟨some r.head, author, defaultMessage name msg, fset c0.files name (utf8Encode c)⟩).2 r.head) (fset c0.files name (utf8Encode c))⟩).2 r.head) (selfMerge (snap (addCommit r ⟨some r.head, author, defaultMessage name msg, fset c0.files name (utf8Encode c)⟩).2 r.head) (fset c0.files name (utf8Encode c)))⟩).2.commits, (addCommit (addCommit (addCommit r ⟨some r.head, author, defaultMessage name msg, fset c0.files name (utf8Encode c)⟩).2 ⟨some r.head, author, defaultMessage name msg, selfMerge (snap (addCommit r ⟨some r.head, author, defaultMessage name msg, fset c0.files name (utf8Encode c)⟩).2 r.head) (fset c0.files name (utf8Encode c))⟩).2 ⟨some r.head, author, defaultMessage name msg, selfMerge (snap (addCommit (addCommit r ⟨some r.head, author, defaultMessage name msg, fset c0.files name (utf8Encode c)⟩).2 ⟨some r.head, author, defaultMessage name msg, selfMerge (snap (addCommit r ⟨some r.head, author, defaultMessage name msg, fset c0.files name (utf8Encode c)⟩).2 r.head) (fset c0.files name (utf8Encode c))⟩).2 r.head) (selfMerge (snap (addCommit r ⟨some r.head, author, defaultMessage name msg, fset c0.files name (utf8Encode c)⟩).2 r.head) (fset c0.files name (utf8Encode c)))⟩).2.nextRev⟩ : Repo) ((addCommit r ⟨some r.head, author, defaultMessage name msg, fset c0.files name (utf8Encode c)⟩).2.nextRev) = (selfMerge (snap (addCommit r ⟨some r.head, author, defaultMessage name msg, fset c0.files name (utf8Encode c)⟩).2 r.head) (fset c0.files name (utf8Encode c))) := by
    exact snap_eq_of_find hfind4
  have hclose : closeWith (⟨(addCommit (addCommit r ⟨some r.head, author, defaultMessage name msg, fset c0.files name (utf8Encode c)⟩).2 ⟨some r.head, author, defaultMessage name msg, selfMerge (snap (addCommit r ⟨some r.head, author, defaultMessage name msg, fset c0.files name (utf8Encode c)⟩).2 r.head) (fset c0.files name (utf8Encode c))⟩).2.nextRev, (addCommit (addCommit (addCommit r ⟨some r.head, author, defaultMessage name msg, fset c0.files name (utf8Encode c)⟩).2 ⟨some r.head, author, defaultMessage name msg, selfMerge (snap (addCommit r ⟨some r.head, author, defaultMessage name msg, fset c0.files name (utf8Encode c)⟩).2 r.head) (fset c0.files name (utf8Encode c))⟩).2 ⟨some r.head, author, defaultMessage name msg, selfMerge (snap (addCommit (addCommit r ⟨some r.head, author, defaultMessage name msg, fset c0.files name (utf8Encode c)⟩).2 ⟨some r.head, author, defaultMessage name msg, selfMerge (snap (addCommit r ⟨some r.head, author, defaultMessage name msg, fset c0.files name (utf8Encode c)⟩).2 r.head) (fset c0.files name (utf8Encode c))⟩).2 r.head) (selfMerge (snap (addCommit r ⟨some r.head, author, defaultMessage name msg, fset c0.files name (utf8Encode c)⟩).2 r.head) (fset c0.files name (utf8Encode c)))⟩).2.commits, (addCommit (addCommit (addCommit r ⟨some r.head, author, defaultMessage name msg, fset c0.files name (utf8Encode c)⟩).2 ⟨some r.head, author, defaultMessage name msg, selfMerge (snap (addCommit r ⟨some r.head, author, defaultMessage name msg, fset c0.files name (utf8Encode c)⟩).2 r.head) (fset c0.files name (utf8Encode c))⟩).2 ⟨some r.head, author, defaultMessage name msg, selfMerge (snap (addCommit (addCommit r ⟨some r.head, author, defaultMessage name msg, fset c0.files name (utf8Encode c)⟩).2 ⟨some r.head, author, defaultMessage name msg, selfMerge (snap (addCommit r ⟨some r.head, author, defaultMessage name msg, fset c0.files name (utf8Encode c)⟩).2 r.head) (fset c0.files name (utf8Encode c))⟩).2 r.head) (selfMerge (snap (addCommit r ⟨some r.head, author, defaultMessage name msg, fset c0.files name (utf8Encode c)⟩).2 r.head) (fset c0.files name (utf8Encode c)))⟩).2.nextRev⟩ : Repo) (⟨(addCommit r ⟨some r.head, author, defaultMessage name msg, fset c0.files name (utf8Encode c)⟩).2.nextRev, selfMerge (snap (addCommit r ⟨some r.head, author, defaultMessage name msg, fset c0.files name (utf8Encode c)⟩).2 r.head) (fset c0.files name (utf8Encode c)), false⟩ : Wt) (.ok none)
      = ⟨.ok none, (⟨(addCommit (addCommit r ⟨some r.head, author, defaultMessage name msg, fset c0.files name (utf8Encode c)⟩).2 ⟨some r.head, author, defaultMessage name msg, selfMerge (snap (addCommit r ⟨some r.head, author, defaultMessage name msg, fset c0.files name (utf8Encode c)⟩).2 r.head) (fset c0.files name (utf8Encode c))⟩).2.nextRev, (addCommit (addCommit (addCommit r ⟨some r.head, author, defaultMessage name msg, fset c0.files name (utf8Encode c)⟩).2 ⟨some r.head, author, defaultMessage name msg, selfMerge (snap (addCommit r ⟨some r.head, author, defaultMessage name msg, fset c0.files name (utf8Encode c)⟩).2 r.head) (fset c0.files name (utf8Encode c))⟩).2 ⟨some r.head, author, defaultMessage name msg, selfMerge (snap (addCommit (addCommit r ⟨some r.head, author, defaultMessage name msg, fset c0.files name (utf8Encode c)⟩).2 ⟨some r.head, author, defaultMessage name msg, selfMerge (snap (addCommit r ⟨some r.head, author, defaultMessage name msg, fset c0.files name (utf8Encode c)⟩).2 r.head) (fset c0.files name (utf8Encode c))⟩).2 r.head) (selfMerge (snap (addCommit r ⟨some r.head, author, defaultMessage name msg, fset c0.files name (utf8Encode c)⟩).2 r.head) (fset c0.files name (utf8Encode c)))⟩).2.commits, (addCommit (addCommit (addCommit r ⟨some r.head, author, defaultMessage name msg, fset c0.files name (utf8Encode c)⟩).2 ⟨some r.head, author, defaultMessage name msg, selfMerge (snap (addCommit r ⟨some r.head, author, defaultMessage name msg, fset c0.files name (utf8Encode c)⟩).2 r.head) (fset c0.files name (utf8Encode c))⟩).2 ⟨some r.head, author, defaultMessage name msg, selfMerge (snap (addCommit (addCommit r ⟨some r.head, author, defaultMessage name msg, fset c0.files name (utf8Encode c)⟩).2 ⟨some r.head, author, defaultMessage name msg, selfMerge (snap (addCommit r ⟨some r.head, author, defaultMessage name msg, fset c0.files name (utf8Encode c)⟩).2 r.head) (fset c0.files name (utf8Encode c))⟩).2 r.head) (selfMerge (snap (addCommit r ⟨some r.head, author, defaultMessage name msg, fset c0.files name (utf8Encode c)⟩).2 r.head) (fset c0.files name (utf8Encode c)))⟩).2.nextRev⟩ : Repo), false⟩ := by
    unfold closeWith wtDirty
    simp [hsnap4, fmEq_refl]
  rw [hupdate, hclose]
  refine ⟨rfl, ?_⟩
  -- reading the document back at the new head
  have hfindP : (⟨(addCommit (addCommit r ⟨some r.head, author, defaultMessage name msg, fset c0.files name (utf8Encode c)⟩).2 ⟨some r.head, author, defaultMessage name msg, selfMerge (snap (addCommit r ⟨some r.head, author, defaultMessage name msg, fset c0.files name (utf8Encode c)⟩).2 r.head) (fset c0.files name (utf8Encode c))⟩).2.nextRev, (addCommit (addCommit (addCommit r ⟨some r.head, author, defaultMessage name msg, fset c0.files name (utf8Encode c)⟩).2 ⟨some r.head, author, defaultMessage name msg, selfMerge (snap (addCommit r ⟨some r.head, author, defaultMessage name msg, fset c0.files name (utf8Encode c)⟩).2 r.head) (fset c0.files name (utf8Encode c))⟩).2 ⟨some r.head, author, defaultMessage name msg, selfMerge (snap (addCommit (addCommit r ⟨some r.head, author, defaultMessage name msg, fset c0.files name (utf8Encode c)⟩).2 ⟨some r.head, author, defaultMessage name msg, selfMerge (snap (addCommit r ⟨some r.head, author, defaultMessage name msg, fset c0.files name (utf8Encode c)⟩).2 r.head) (fset c0.files name (utf8Encode c))⟩).2 r.head) (selfMerge (snap (addCommit r ⟨some r.head, author, defaultMessage name msg, fset c0.files name (utf8Encode c)⟩).2 r.head) (fset c0.files name (utf8Encode c)))⟩).2.commits, (addCommit (addCommit (addCommit r ⟨some r.head, author, defaultMessage name msg, fset c0.files name (utf8Encode c)⟩).2 ⟨some r.head, author, defaultMessage name msg, selfMerge (snap (addCommit r ⟨some r.head, author, defaultMessage name msg, fset c0.files name (utf8Encode c)⟩).2 r.head) (fset c0.files name (utf8Encode c))⟩).2 ⟨some r.head, author, defaultMessage name msg, selfMerge (snap (addCommit (addCommit r ⟨some r.head, author, defaultMessage name msg, fset c0.files name (utf8Encode c)⟩).2 ⟨some r.head, author, defaultMessage name msg, selfMerge (snap (addCommit r ⟨some r.head, author, defaultMessage name msg, fset c0.files name (utf8Encode c)⟩).2 r.head) (fset c0.files name (utf8Encode c))⟩).2 r.head) (selfMerge (snap (addCommit r ⟨some r.head, author, defaultMessage name msg, fset c0.files name (utf8Encode c)⟩).2 r.head) (fset c0.files name (utf8Encode c)))⟩).2.nextRev⟩ : Repo).find ((⟨(addCommit (addCommit r ⟨some r.head, author, defaultMessage name msg, fset c0.files name (utf8Encode c)⟩).2 ⟨some r.head, author, defaultMessage name msg, selfMerge (snap (addCommit r ⟨some r.head, author, defaultMessage name msg, fset c0.files name (utf8Encode c)⟩).2 r.head) (fset c0.files name (utf8Encode c))⟩).2.nextRev, (addCommit (addCommit (addCommit r ⟨some r.head, author, defaultMessage name msg, fset c0.files name (utf8Encode c)⟩).2 ⟨some r.head, author, defaultMessage name msg, selfMerge (snap (addCommit r ⟨some r.head, author, defaultMessage name msg, fset c0.files name (utf8Encode c)⟩).2 r.head) (fset c0.files name (utf8Encode c))⟩).2 ⟨some r.head, author, defaultMessage name msg, selfMerge (snap (addCommit (addCommit r ⟨some r.head, author, defaultMessage name msg, fset c0.files name (utf8Encode c)⟩).2 ⟨some r.head, author, defaultMessage name msg, selfMerge (snap (addCommit r ⟨some r.head, author, defaultMessage name msg, fset c0.files name (utf8Encode c)⟩).2 r.head) (fset c0.files name (utf8Encode c))⟩).2 r.head) (selfMerge (snap (addCommit r ⟨some r.head, author, defaultMessage name msg, fset c0.files name (utf8Encode c)⟩).2 r.head) (fset c0.files name (utf8Encode c)))⟩).2.commits, (addCommit (addCommit (addCommit r ⟨some r.head, author, defaultMessage name msg, fset c0.files name (utf8Encode c)⟩).2 ⟨some r.head, author, defaultMessage name msg, selfMerge (snap (addCommit r ⟨some r.head, author, defaultMessage name msg, fset c0.files name (utf8Encode c)⟩).2 r.head) (fset c0.files name (utf8Encode c))⟩).2 ⟨some r.head, author, defaultMessage name msg, selfMerge (snap (addCommit (addCommit r ⟨some r.head, author, defaultMessage name msg, fset c0.files name (utf8Encode c)⟩).2 ⟨some r.head, author, defaultMessage name msg, selfMerge (snap (addCommit r ⟨some r.head, author, defaultMessage name msg, fset c0.files name (utf8Encode c)⟩).2 r.head) (fset c0.files name (utf8Encode c))⟩).2 r.head) (selfMerge (snap (addCommit r ⟨some r.head, author, defaultMessage name msg, fset c0.files name (utf8Encode c)⟩).2 r.head) (fset c0.files name (utf8Encode c)))⟩).2.nextRev⟩ : Repo).head) = some (⟨some r.head, author, defaultMessage name msg, selfMerge (snap (addCommit (addCommit r ⟨some r.head, author, defaultMessage name msg, fset c0.files name (utf8Encode c)⟩).2 ⟨some r.head, author, defaultMessage name msg, selfMerge (snap (addCommit r ⟨some r.head, author, defaultMessage name msg, fset c0.files name (utf8Encode c)⟩).2 r.head) (fset c0.files name (utf8Encode c))⟩).2 r.head) (selfMerge (snap (addCommit r ⟨some r.head, author, defaultMessage name msg, fset c0.files name (utf8Encode c)⟩).2 r.head) (fset c0.files name (utf8Encode c)))⟩ : Commit) := by
    show ((addCommit (addCommit (addCommit r ⟨some r.head, author, defaultMessage name msg, fset c0.files name (utf8Encode c)⟩).2 ⟨some r.head, author, defaultMessage name msg, selfMerge (snap (addCommit r ⟨some r.head, author, defaultMessage name msg, fset c0.files name (utf8Encode c)⟩).2 r.head) (fset c0.files name (utf8Encode c))⟩).2 ⟨some r.head, author, defaultMessage name msg, selfMerge (snap (addCommit (addCommit r ⟨some r.head, author, defaultMessage name msg, fset c0.files name (utf8Encode c)⟩).2 ⟨some r.head, author, defaultMessage name msg, selfMerge (snap (addCommit r ⟨some r.head, author, defaultMessage name msg, fset c0.files name (utf8Encode c)⟩).2 r.head) (fset c0.files name (utf8Encode c))⟩).2 r.head) (selfMerge (snap (addCommit r ⟨some r.head, author, defaultMessage name msg, fset c0.files name (utf8Encode c)⟩).2 r.head) (fset c0.files name (utf8Encode c)))⟩).2).find ((addCommit (addCommit r ⟨some r.head, author, defaultMessage name msg, fset c0.files name (utf8Encode c)⟩).2 ⟨some r.head, author, defaultMessage name msg, selfMerge (snap (addCommit r ⟨some r.head, author, defaultMessage name msg, fset c0.files name (utf8Encode c)⟩).2 r.head) (fset c0.files name (utf8Encode c))⟩).2.nextRev) = _
    exact find_addCommit_self (addCommit (addCommit r ⟨some r.head, author, defaultMessage name msg, fset c0.files name (utf8Encode c)⟩).2 ⟨some r.head, author, defaultMessage name msg, selfMerge (snap (addCommit r ⟨some r.head, author, defaultMessage name msg, fset c0.files name (utf8Encode c)⟩).2 r.head) (fset c0.files name (utf8Encode c))⟩).2 ⟨some r.head, author, defaultMessage name msg, selfMerge (snap (addCommit (addCommit r ⟨some r.head, author, defaultMessage name msg, fset c0.files name (utf8Encode c)⟩).2 ⟨some r.head, author, defaultMessage name msg, selfMerge (snap (addCommit r ⟨some r.head, author, defaultMessage name msg, fset c0.files name (utf8Encode c)⟩).2 r.head) (fset c0.files name (utf8Encode c))⟩).2 r.head) (selfMerge (snap (addCommit r ⟨some r.head, author, defaultMessage name msg, fset c0.files name (utf8Encode c)⟩).2 r.head) (fset c0.files name (utf8Encode c)))⟩
  have hgetP : fget (Commit.files (⟨some r.head, author, defaultMessage name msg, selfMerge (snap (addCommit (addCommit r ⟨some r.head, author, defaultMessage name msg, fset c0.files name (utf8Encode c)⟩).2 ⟨some r.head, author, defaultMessage name msg, selfMerge (snap (addCommit r ⟨some r.head, author, defaultMessage name msg, fset c0.files name (utf8Encode c)⟩).2 r.head) (fset c0.files name (utf8Encode c))⟩).2 r.head) (selfMerge (snap (addCommit r ⟨some r.head, author, defaultMessage name msg, fset c0.files name (utf8Encode c)⟩).2 r.head) (fset c0.files name (utf8Encode c)))⟩ : Commit)) name = some (utf8Encode c) := by
    show fget (selfMerge (snap (addCommit (addCommit r ⟨some r.head, author, defaultMessage name msg, fset c0.files name (utf8Encode c)⟩).2 ⟨some r.head, author, defaultMessage name msg, selfMerge (snap (addCommit r ⟨some r.head, author, defaultMessage name msg, fset c0.files name (utf8Encode c)⟩).2 r.head) (fset c0.files name (utf8Encode c))⟩).2 r.head) (selfMerge (snap (addCommit r ⟨some r.head, author, defaultMessage name msg, fset c0.files name (utf8Encode c)⟩).2 r.head) (fset c0.files name (utf8Encode c)))) name = _
    rw [fget_selfMerge]
    show fget (selfMerge (snap (addCommit r ⟨some r.head, author, defaultMessage name msg, fset c0.files name (utf8Encode c)⟩).2 r.head) (fset c0.files name (utf8Encode c))) name = _
    rw [fget_selfMerge]
    exact fget_fset_self c0.files name (utf8Encode c)
  show get_contents_at_revision (⟨(addCommit (addCommit r ⟨some r.head, author, defaultMessage name msg, fset c0.files name (utf8Encode c)⟩).2 ⟨some r.head, author, defaultMessage name msg, selfMerge (snap (addCommit r ⟨some r.head, author, defaultMessage name msg, fset c0.files name (utf8Encode c)⟩).2 r.head) (fset c0.files name (utf8Encode c))⟩).2.nextRev, (addCommit (addCommit (addCommit r ⟨some r.head, author, defaultMessage name msg, fset c0.files name (utf8Encode c)⟩).2 ⟨some r.head, author, defaultMessage name msg, selfMerge (snap (addCommit r ⟨some r.head, author, defaultMessage name msg, fset c0.files name (utf8Encode c)⟩).2 r.head) (fset c0.files name (utf8Encode c))⟩).2 ⟨some r.head, author, defaultMessage name msg, selfMerge (snap (addCommit (addCommit r ⟨some r.head, author, defaultMessage name msg, fset c0.files name (utf8Encode c)⟩).2 ⟨some r.head, author, defaultMessage name msg, selfMerge (snap (addCommit r ⟨some r.head, author, defaultMessage name msg, fset c0.files name (utf8Encode c)⟩).2 r.head) (fset c0.files name (utf8Encode c))⟩).2 r.head) (selfMerge (snap (addCommit r ⟨some r.head, author, defaultMessage name msg, fset c0.files name (utf8Encode c)⟩).2 r.head) (fset c0.files name (utf8Encode c)))⟩).2.commits, (addCommit (addCommit (addCommit r ⟨some r.head, author, defaultMessage name msg, fset c0.files name (utf8Encode c)⟩).2 ⟨some r.head, author, defaultMessage name msg, selfMerge (snap (addCommit r ⟨some r.head, author, defaultMessage name msg, fset c0.files name (utf8Encode c)⟩).2 r.head) (fset c0.files name (utf8Encode c))⟩).2 ⟨some r.head, author, defaultMessage name msg, selfMerge (snap (addCommit (addCommit r ⟨some r.head, author, defaultMessage name msg, fset c0.files name (utf8Encode c)⟩).2 ⟨some r.head, author, defaultMessage name msg, selfMerge (snap (addCommit r ⟨some r.head, author, defaultMessage name msg, fset c0.files name (utf8Encode c)⟩).2 r.head) (fset c0.files name (utf8Encode c))⟩).2 r.head) (selfMerge (snap (addCommit r ⟨some r.head, author, defaultMessage name msg, fset c0.files name (utf8Encode c)⟩).2 r.head) (fset c0.files name (utf8Encode c)))⟩).2.nextRev⟩ : Repo) name ((⟨(addCommit (addCommit r ⟨some r.head, author, defaultMessage name msg, fset c0.files name (utf8Encode c)⟩).2 ⟨some r.head, author, defaultMessage name msg, selfMerge (snap (addCommit r ⟨some r.head, author, defaultMessage name msg, fset c0.files name (utf8Encode c)⟩).2 r.head) (fset c0.files name (utf8Encode c))⟩).2.nextRev, (addCommit (addCommit (addCommit r ⟨some r.head, author, defaultMessage name msg, fset c0.files name (utf8Encode c)⟩).2 ⟨some r.head, author, defaultMessage name msg, selfMerge (snap (addCommit r ⟨some r.head, author, defaultMessage name msg, fset c0.files name (utf8Encode c)⟩).2 r.head) (fset c0.files name (utf8Encode c))⟩).2 ⟨some r.head, author, defaultMessage name msg, selfMerge (snap (addCommit (addCommit r ⟨some r.head, author, defaultMessage name msg, fset c0.files name (utf8Encode c)⟩).2 ⟨some r.head, author, defaultMessage name msg, selfMerge (snap (addCommit r ⟨some r.head, author, defaultMessage name msg, fset c0.files name (utf8Encode c)⟩).2 r.head) (fset c0.files name (utf8Encode c))⟩).2 r.head) (selfMerge (snap (addCommit r ⟨some r.head, author, defaultMessage name msg, fset c0.files name (utf8Encode c)⟩).2 r.head) (fset c0.files name (utf8Encode c)))⟩).2.commits, (addCommit (addCommit (addCommit r ⟨some r.head, author, defaultMessage name msg, fset c0.files name (utf8Encode c)⟩).2 ⟨some r.head, author, defaultMessage name msg, selfMerge (snap (addCommit r ⟨some r.head, author, defaultMessage name msg, fset c0.files name (utf8Encode c)⟩).2 r.head) (fset c0.files name (utf8Encode c))⟩).2 ⟨some r.head, author, defaultMessage name msg, selfMerge (snap (addCommit (addCommit r ⟨some r.head, author, defaultMessage name msg, fset c0.files name (utf8Encode c)⟩).2 ⟨some r.head, author, defaultMessage name msg, selfMerge (snap (addCommit r ⟨some r.head, author, defaultMessage name msg, fset c0.files name (utf8Encode c)⟩).2 r.head) (fset c0.files name (utf8Encode c))⟩).2 r.head) (selfMerge (snap (addCommit r ⟨some r.head, author, defaultMessage name msg, fset c0.files name (utf8Encode c)⟩).2 r.head) (fset c0.files name (utf8Encode c)))⟩).2.nextRev⟩ : Repo).head) = .ok c
  unfold get_contents_at_revision gitShow
  rw [hfindP]
  simp only [hgetP]
  rw [decode_encode c hsc, nlNorm_of_no_cr c hcr]

/-- C3 amended, witness: writing `"hi"` over `"a"` at the current head of
the one-commit fixture and reading it back. -/
theorem c3_amended_witness :
    RepoWF repo0 ∧ repo0.find repo0.head = some commit0 ∧
    (∀ x ∈ ([104, 105] : Str), ScalarValue x) ∧ 13 ∉ ([104, 105] : Str) ∧
    fget commit0.files pg ≠ some (utf8Encode [104, 105]) ∧
    ((update_file repo0 pg authA (some (.text [104, 105]))
        repo0.head "m").result = .ok none ∧
     get_contents_at_revision
        (update_file repo0 pg authA (some (.text [104, 105]))
          repo0.head "m").repo pg
        (update_file repo0 pg authA (some (.text [104, 105]))
          repo0.head "m").repo.head
      = .ok [104, 105]) :=
  ⟨by decide, by decide, by decide, by decide, by decide,
   c3_amended repo0 pg authA "m" [104, 105] commit0 (by decide) (by decide)
     (by decide) (by decide) (by decide)⟩

end Gitki
